import Mathlib

/-!
Verification of the analytical core of the music-taste-genome repository:
the feature aggregator and diversity scorer (`src/analyzers/sonic_profiler.py`),
the temporal analyzer (`src/analyzers/temporal_analyzer.py`) and the
genome-music correlation engine (`src/correlator.py`), shallowly embedded in
Lean.  Python floats are modelled as exact rationals (reals where `math.log`
or `math.sqrt` genuinely appear); Python `None` becomes `Option`; Python dicts
become structures with `Option` fields or association lists.
-/

set_option maxHeartbeats 1000000

namespace MTG

/-! ### Python rounding

`round(x, n)` in Python rounds half to even.  `pyRound` is the
round-half-to-even integer rounding on `ℚ`; `roundTo n` is `round(x, n)`. -/

def pyRound (q : ℚ) : ℤ :=
  if q - ⌊q⌋ < 1/2 then ⌊q⌋
  else if 1/2 < q - ⌊q⌋ then ⌊q⌋ + 1
  else if Even ⌊q⌋ then ⌊q⌋ else ⌊q⌋ + 1

def roundTo (n : ℕ) (q : ℚ) : ℚ := (pyRound (q * 10 ^ n) : ℚ) / 10 ^ n

/-- Python `round(x, 1)`. -/
def round1 (q : ℚ) : ℚ := roundTo 1 q

/-- Python `round(x, 2)`. -/
def round2 (q : ℚ) : ℚ := roundTo 2 q

/-! ### Data model for the correlation engine (`src/correlator.py`)

The correlator reads the sonic profile, the genome context and the temporal
profile purely through dictionary lookups with defaults, so the embedding
models exactly the fields it reads. -/

/-- One per-feature summary entry of the sonic profile, as read by the
correlator: `audio_features["tempo"]["mean"]`, `audio_features["valence"]["std"]`
etc. (missing keys default to `0` via chained `.get`). -/
structure FeatEntry where
  mean : Option ℚ := none
  std : Option ℚ := none
  deriving DecidableEq, Repr

instance : Inhabited FeatEntry := ⟨{}⟩

/-- The `audio_features` block of a sonic profile, as read by the correlator. -/
structure AudioSummary where
  tempo : Option FeatEntry := none
  valence : Option FeatEntry := none
  low_valence_pct : Option ℚ := none
  deriving DecidableEq, Repr

instance : Inhabited AudioSummary := ⟨{}⟩

/-- The `diversity` block of a sonic profile, as read by the correlator. -/
structure DiversityBlock where
  diversity_index : Option ℚ := none
  repeat_ratio : Option ℚ := none
  deriving DecidableEq, Repr

instance : Inhabited DiversityBlock := ⟨{}⟩

/-- The sonic profile (`self.sonic`), as read by the correlator. -/
structure SonicDNA where
  audio_features : Option AudioSummary := none
  diversity : Option DiversityBlock := none
  deriving DecidableEq, Repr

/-- A genome finding: `gene_info["status"]` is accessed unconditionally,
so `status` is a required field. -/
structure GeneInfo where
  status : String
  deriving DecidableEq, Repr

instance : Inhabited GeneInfo := ⟨⟨""⟩⟩

/-- The chronotype block (`me_score` and `me_label` are read with defaults). -/
structure Chronotype where
  me_score : Option ℚ := none
  me_label : Option String := none
  deriving DecidableEq, Repr

/-- The genome context: a gene-symbol-keyed dictionary of findings (modelled
as an association list, first binding wins, like a Python dict built from
first occurrences) and an optional chronotype block. -/
structure GenomeContext where
  genes : List (String × GeneInfo) := []
  chronotype : Option Chronotype := none
  deriving DecidableEq, Repr

/-- The temporal profile as read by the correlator (`peak_hour` only). -/
structure TemporalInfo where
  peak_hour : Option ℕ := none
  deriving DecidableEq, Repr

/-- An expected range from a rule table (`{"min": .., "max": ..}`;
the chronotype table also carries an `me_range` annotation). -/
structure RangeInfo where
  min : ℚ
  max : ℚ
  me_range : Option String := none
  deriving DecidableEq, Repr

/-- The two verdict templates ("in range" vs "out of range"), with the
out-of-range direction split (above max / below min) used by the gene rules;
the chronotype rule has a single undirected out-of-range template.  The
verdict strings of the source are presentation built from these cases. -/
inductive Verdict where
  | inRange
  | aboveMax
  | belowMin
  | outOfRange
  deriving DecidableEq, Repr

/-- A metric value: a rounded number, or the `f"{peak_hour}:00"` string of
the chronotype rule. -/
inductive MetricValue where
  | num (q : ℚ)
  | hourText (h : ℕ)
  deriving DecidableEq, Repr

/-- Correlation result record (`_make_result`). -/
structure CorrelationResult where
  id : String
  gene : String
  gene_status : String
  metric : String
  value : MetricValue
  expected_ranges : List (String × RangeInfo)
  verdict : Verdict
  why_matters : String
  why_bs : String
  confidence : String
  deriving DecidableEq, Repr

/-- The `_make_result` helper: the standard correlation result format. -/
def make_result (correlation_id gene gene_status metric_name : String)
    (metric_value : MetricValue) (expected_ranges : List (String × RangeInfo))
    (verdict : Verdict) (why_matters why_bs confidence : String) :
    CorrelationResult :=
  { id := correlation_id, gene := gene, gene_status := gene_status
    metric := metric_name, value := metric_value
    expected_ranges := expected_ranges, verdict := verdict
    why_matters := why_matters, why_bs := why_bs, confidence := confidence }

/-- Expected-range table of `correlate_caffeine_tempo`. -/
def caffeineRanges : List (String × RangeInfo) :=
  [("fast", ⟨125, 140, none⟩), ("intermediate", ⟨110, 125, none⟩),
   ("slow", ⟨95, 115, none⟩)]

/-- Rule `correlate_caffeine_tempo`: CYP1A2 x average tempo.  Returns `none` when
the genome has no CYP1A2 finding or the tempo mean is the 0 sentinel;
an unrecognized status falls back to the `{min: 0, max: 999}` default.
(The `why_matters`/`why_bs` prose of the source is abridged.) -/
def correlate_caffeine_tempo (sonic : SonicDNA) (genome : GenomeContext) :
    Option CorrelationResult :=
  match genome.genes.lookup "CYP1A2" with
  | none => none
  | some gene_info =>
    let status := gene_info.status
    let audio_features := sonic.audio_features.getD {}
    let avg_tempo := ((audio_features.tempo.getD {}).mean).getD 0
    if avg_tempo = 0 then none
    else
      let expected_ranges := caffeineRanges
      let range_info := (expected_ranges.lookup status).getD ⟨0, 999, none⟩
      let verdict :=
        if range_info.min ≤ avg_tempo ∧ avg_tempo ≤ range_info.max then
          Verdict.inRange
        else if range_info.max < avg_tempo then Verdict.aboveMax
        else Verdict.belowMin
      some (make_result "caffeine_tempo" "CYP1A2" status "Average Tempo (BPM)"
        (.num (round1 avg_tempo)) expected_ranges verdict
        "CYP1A2 controls caffeine metabolism; tempo is a proxy for musical energy."
        "Tempo preferences are shaped by culture, mood and genre exposure."
        "weak")

/-- Expected-range table of `correlate_chronotype_hours` (hour windows). -/
def chronotypeRanges : List (String × RangeInfo) :=
  [("Morning", ⟨6, 14, some "ME > 0"⟩), ("Evening", ⟨16, 23, some "ME < 0"⟩),
   ("Intermediate", ⟨10, 20, some "ME ~ 0"⟩)]

/-- Rule `correlate_chronotype_hours`: chronotype (ME score) x peak listening hour.
Returns `none` when the chronotype block or the temporal profile is absent,
or when `peak_hour` is null.  Derives a 3-way category from the sign of
`me_score`; the table is indexed directly (the key is always present). -/
def correlate_chronotype_hours (genome : GenomeContext)
    (temporal : Option TemporalInfo) : Option CorrelationResult :=
  match genome.chronotype, temporal with
  | none, _ => none
  | some _, none => none
  | some chronotype, some temp =>
    let me_score := chronotype.me_score.getD 0
    let me_label := chronotype.me_label.getD "Unknown"
    match temp.peak_hour with
    | none => none
    | some peak_hour_int =>
      let expected_ranges := chronotypeRanges
      let chrono_category :=
        if 0 < me_score then "Morning"
        else if me_score < 0 then "Evening"
        else "Intermediate"
      let range_info := (expected_ranges.lookup chrono_category).getD ⟨0, 0, none⟩
      let verdict :=
        if range_info.min ≤ (peak_hour_int : ℚ) ∧
            (peak_hour_int : ℚ) ≤ range_info.max then
          Verdict.inRange
        else Verdict.outOfRange
      some (make_result "chronotype_hours" "Circadian Rhythm Genes" me_label
        "Peak Listening Hour" (.hourText peak_hour_int) expected_ranges verdict
        "Chronotype affects when you are most alert and receptive."
        "Work schedules, kids, insomnia and time zones destroy the signal."
        "moderate")

/-- Expected-range table of `correlate_comt_valence`. -/
def comtRanges : List (String × RangeInfo) :=
  [("fast", ⟨55/100, 75/100, none⟩), ("intermediate", ⟨40/100, 60/100, none⟩),
   ("slow", ⟨35/100, 55/100, none⟩)]

/-- Rule `correlate_comt_valence`: COMT x average valence.  Returns `none` without
a COMT finding or when the valence mean is the 0 sentinel; unrecognized
status falls back to `{min: 0, max: 1}`. -/
def correlate_comt_valence (sonic : SonicDNA) (genome : GenomeContext) :
    Option CorrelationResult :=
  match genome.genes.lookup "COMT" with
  | none => none
  | some gene_info =>
    let status := gene_info.status
    let audio_features := sonic.audio_features.getD {}
    let avg_valence := ((audio_features.valence.getD {}).mean).getD 0
    if avg_valence = 0 then none
    else
      let expected_ranges := comtRanges
      let range_info := (expected_ranges.lookup status).getD ⟨0, 1, none⟩
      let verdict :=
        if range_info.min ≤ avg_valence ∧ avg_valence ≤ range_info.max then
          Verdict.inRange
        else if range_info.max < avg_valence then Verdict.aboveMax
        else Verdict.belowMin
      some (make_result "comt_valence" "COMT" status "Average Valence"
        (.num (round2 avg_valence)) expected_ranges verdict
        "COMT breaks down dopamine in the prefrontal cortex."
        "Valence is a rough guess at positivity, not lyrical content."
        "speculative")

/-- Expected-range table of `correlate_bdnf_diversity`. -/
def bdnfRanges : List (String × RangeInfo) :=
  [("normal", ⟨55, 85, none⟩), ("reduced", ⟨30, 55, none⟩)]

/-- Rule `correlate_bdnf_diversity`: BDNF x diversity index.  Returns `none`
without a BDNF finding or when the diversity index is the 0 sentinel;
unrecognized status falls back to `{min: 0, max: 100}`. -/
def correlate_bdnf_diversity (sonic : SonicDNA) (genome : GenomeContext) :
    Option CorrelationResult :=
  match genome.genes.lookup "BDNF" with
  | none => none
  | some gene_info =>
    let status := gene_info.status
    let diversity_data := sonic.diversity.getD {}
    let diversity_index := diversity_data.diversity_index.getD 0
    if diversity_index = 0 then none
    else
      let expected_ranges := bdnfRanges
      let range_info := (expected_ranges.lookup status).getD ⟨0, 100, none⟩
      let verdict :=
        if range_info.min ≤ diversity_index ∧
            diversity_index ≤ range_info.max then
          Verdict.inRange
        else if range_info.max < diversity_index then Verdict.aboveMax
        else Verdict.belowMin
      some (make_result "bdnf_diversity" "BDNF" status "Diversity Index"
        (.num (round1 diversity_index)) expected_ranges verdict
        "BDNF supports neuroplasticity; diversity is a proxy for novelty seeking."
        "Diversity scores are biased by platform quirks and recommendations."
        "speculative")

/-- Expected-range table of `correlate_serotonin_emotional_range`. -/
def serotoninRanges : List (String × RangeInfo) :=
  [("normal", ⟨15/100, 25/100, none⟩), ("short", ⟨25/100, 40/100, none⟩)]

/-- Rule `correlate_serotonin_emotional_range`: SLC6A4 x valence standard
deviation.  Returns `none` without an SLC6A4 finding or when the valence
std is the 0 sentinel; unrecognized status falls back to `{min: 0, max: 1}`. -/
def correlate_serotonin_emotional_range (sonic : SonicDNA)
    (genome : GenomeContext) : Option CorrelationResult :=
  match genome.genes.lookup "SLC6A4" with
  | none => none
  | some gene_info =>
    let status := gene_info.status
    let audio_features := sonic.audio_features.getD {}
    let valence_std := ((audio_features.valence.getD {}).std).getD 0
    if valence_std = 0 then none
    else
      let expected_ranges := serotoninRanges
      let range_info := (expected_ranges.lookup status).getD ⟨0, 1, none⟩
      let verdict :=
        if range_info.min ≤ valence_std ∧ valence_std ≤ range_info.max then
          Verdict.inRange
        else if range_info.max < valence_std then Verdict.aboveMax
        else Verdict.belowMin
      some (make_result "serotonin_emotional_range" "SLC6A4" status
        "Valence Standard Deviation" (.num (round2 valence_std))
        expected_ranges verdict
        "SLC6A4 regulates serotonin reuptake and emotional reactivity."
        "Emotional range in music could equally be eclectic taste."
        "speculative")

/-- Expected-range table of `correlate_drd2_repeat_plays`. -/
def drd2Ranges : List (String × RangeInfo) :=
  [("normal", ⟨0, 15/100, none⟩), ("reduced", ⟨20/100, 1, none⟩)]

/-- Rule `correlate_drd2_repeat_plays`: DRD2/ANKK1 x repeat ratio.  Returns `none`
only when neither DRD2 nor ANKK1 is present (DRD2 preferred when both are);
note there is no 0-sentinel check on `repeat_ratio` in the source.
Unrecognized status falls back to `{min: 0, max: 1}`. -/
def correlate_drd2_repeat_plays (sonic : SonicDNA) (genome : GenomeContext) :
    Option CorrelationResult :=
  let genes := genome.genes
  if genes.lookup "DRD2" = none ∧ genes.lookup "ANKK1" = none then none
  else
    let gene_name := if (genes.lookup "DRD2").isSome then "DRD2" else "ANKK1"
    let gene_info := (genes.lookup gene_name).getD default
    let status := gene_info.status
    let diversity := sonic.diversity.getD {}
    let repeat_ratio := diversity.repeat_ratio.getD 0
    let expected_ranges := drd2Ranges
    let range_info := (expected_ranges.lookup status).getD ⟨0, 1, none⟩
    let verdict :=
      if range_info.min ≤ repeat_ratio ∧ repeat_ratio ≤ range_info.max then
        Verdict.inRange
      else if range_info.max < repeat_ratio then Verdict.aboveMax
      else Verdict.belowMin
    some (make_result "drd2_repeat_plays" gene_name status "Repeat Play Ratio"
      (.num (round2 repeat_ratio)) expected_ranges verdict
      "DRD2/ANKK1 variants affect dopamine D2 receptor density."
      "Repeat plays are confounded by algorithm loops and playlists."
      "speculative")

/-- Expected-range table of `correlate_oprm1_sad_music`. -/
def oprm1Ranges : List (String × RangeInfo) :=
  [("normal", ⟨15, 25, none⟩), ("enhanced", ⟨25, 40, none⟩)]

/-- Rule `correlate_oprm1_sad_music`: OPRM1 x low-valence track percentage.
Returns `none` without an OPRM1 finding or when `low_valence_pct` is the
0 sentinel; unrecognized status falls back to `{min: 0, max: 100}`. -/
def correlate_oprm1_sad_music (sonic : SonicDNA) (genome : GenomeContext) :
    Option CorrelationResult :=
  match genome.genes.lookup "OPRM1" with
  | none => none
  | some gene_info =>
    let status := gene_info.status
    let audio_features := sonic.audio_features.getD {}
    let low_valence_pct := audio_features.low_valence_pct.getD 0
    if low_valence_pct = 0 then none
    else
      let expected_ranges := oprm1Ranges
      let range_info := (expected_ranges.lookup status).getD ⟨0, 100, none⟩
      let verdict :=
        if range_info.min ≤ low_valence_pct ∧
            low_valence_pct ≤ range_info.max then
          Verdict.inRange
        else if range_info.max < low_valence_pct then Verdict.aboveMax
        else Verdict.belowMin
      some (make_result "oprm1_sad_music" "OPRM1" status
        "Low-Valence Track Percentage" (.num (round1 low_valence_pct))
        expected_ranges verdict
        "OPRM1 mediates emotional and physical pain relief."
        "Low valence does not mean sad lyrics; it is just musical features."
        "speculative")

/-- The `confidence_order` dictionary of `run_all`. -/
def confidenceOrder : List (String × ℕ) :=
  [("moderate", 0), ("weak", 1), ("speculative", 2)]

/-- Dictionary read `confidence_order.get(confidence, 3)`: rank of a confidence label,
anything unrecognized ranks 3 (after the three known labels). -/
def confRank (c : String) : ℕ := (confidenceOrder.lookup c).getD 3

/-- The non-null results of the 7 rules in rule-definition order
(the collection loop of `run_all`). -/
def collectResults (sonic : SonicDNA) (genome : GenomeContext)
    (temporal : Option TemporalInfo) : List CorrelationResult :=
  [correlate_caffeine_tempo sonic genome,
   correlate_chronotype_hours genome temporal,
   correlate_comt_valence sonic genome,
   correlate_bdnf_diversity sonic genome,
   correlate_serotonin_emotional_range sonic genome,
   correlate_drd2_repeat_plays sonic genome,
   correlate_oprm1_sad_music sonic genome].filterMap id

/-- Method `run_all`: run all 7 rules, keep the non-null results, sort by confidence
rank.  Python `list.sort` is stable; `insertionSort` with the non-strict
rank comparison inserts each element before the first strictly-later-sorted
element of the already-sorted suffix, which is exactly stable sorting by
the rank key. -/
def run_all (sonic : SonicDNA) (genome : GenomeContext)
    (temporal : Option TemporalInfo) : List CorrelationResult :=
  (collectResults sonic genome temporal).insertionSort
    (fun a b => confRank a.confidence ≤ confRank b.confidence)

/-! ### Data model for the analyzers (`src/analyzers/sonic_profiler.py`,
`src/analyzers/temporal_analyzer.py`) -/

/-- The optional bag of audio measurements on a track. -/
structure AudioFeatures where
  tempo : Option ℚ := none
  energy : Option ℚ := none
  valence : Option ℚ := none
  danceability : Option ℚ := none
  acousticness : Option ℚ := none
  instrumentalness : Option ℚ := none
  loudness : Option ℚ := none
  speechiness : Option ℚ := none
  liveness : Option ℚ := none
  key : Option ℕ := none
  mode : Option ℕ := none
  duration_ms : Option ℚ := none
  deriving DecidableEq, Repr

/-- An input track record.  `audio_features = none` models a missing or empty
(falsy) feature dict; `artists` given as a plain string in the source maps
to a one-element list (the code takes `track_artists[0]` of a list and the
whole value otherwise). -/
structure Track where
  track_id : Option String := none
  artists : List String := []
  played_at : Option String := none
  audio_features : Option AudioFeatures := none
  deriving DecidableEq, Repr

/-- The 9 named numeric features collected by the aggregator. -/
inductive FeatName where
  | tempo | energy | valence | danceability | acousticness
  | instrumentalness | loudness | speechiness | liveness
  deriving DecidableEq, Repr

/-- Field access `af.get(feature_name)`. -/
def featGet : FeatName → AudioFeatures → Option ℚ
  | .tempo, af => af.tempo
  | .energy, af => af.energy
  | .valence, af => af.valence
  | .danceability, af => af.danceability
  | .acousticness, af => af.acousticness
  | .instrumentalness, af => af.instrumentalness
  | .loudness, af => af.loudness
  | .speechiness, af => af.speechiness
  | .liveness, af => af.liveness

/-- The collection loop of `aggregate_audio_features`: present (non-null)
values of one feature across all tracks, skipping tracks whose feature
dict is absent/falsy. -/
def collectFeature (tracks : List Track) (f : FeatName) : List ℚ :=
  tracks.filterMap fun t => t.audio_features.bind (featGet f)

/-- Python `min(values)` on a non-empty list (0 on `[]`, unreachable). -/
def pyMin (l : List ℚ) : ℚ :=
  match l with
  | [] => 0
  | x :: xs => xs.foldl min x

/-- Python `max(values)` on a non-empty list (0 on `[]`, unreachable). -/
def pyMax (l : List ℚ) : ℚ :=
  match l with
  | [] => 0
  | x :: xs => xs.foldl max x

/-- Python `statistics.mean`. -/
def pyMean (l : List ℚ) : ℚ := l.sum / l.length

/-- Python `statistics.median`: middle element of the ascending sort for odd
length, average of the two middle elements for even length. -/
def pyMedian (l : List ℚ) : ℚ :=
  let s := l.insertionSort (· ≤ ·)
  let n := l.length
  if n % 2 = 1 then s.getD (n / 2) 0
  else (s.getD (n / 2 - 1) 0 + s.getD (n / 2) 0) / 2

/-- Python `statistics.stdev`: sample standard deviation
`sqrt(sum (x - mean)^2 / (n - 1))` (used only for `n > 1`). -/
noncomputable def sampleStd (l : List ℚ) : ℝ :=
  Real.sqrt ((l.map fun x => ((x : ℝ) - (pyMean l : ℝ)) ^ 2).sum /
    ((l.length : ℝ) - 1))

/-- Round-half-to-even on the reals (Python `round` under exact-real
semantics), for the quantities the source computes with `math.sqrt` /
`math.log`. -/
noncomputable def pyRoundR (x : ℝ) : ℤ :=
  if x - ⌊x⌋ < 1/2 then ⌊x⌋
  else if 1/2 < x - ⌊x⌋ then ⌊x⌋ + 1
  else if Even ⌊x⌋ then ⌊x⌋ else ⌊x⌋ + 1

noncomputable def roundToR (n : ℕ) (x : ℝ) : ℝ := (pyRoundR (x * 10 ^ n) : ℝ) / 10 ^ n

/-- Per-feature summary statistics (one value of the per-feature dict built
at lines 175-190 of `sonic_profiler.py`). -/
structure FeatureStats where
  mean : ℚ
  median : ℚ
  std : ℝ
  p25 : ℚ
  p75 : ℚ
  min : ℚ
  max : ℚ

/-- The statistics block computed for one non-empty value list. -/
noncomputable def featureStats (values : List ℚ) : FeatureStats :=
  let sorted_vals := values.insertionSort (· ≤ ·)
  let n := values.length
  { mean := round2 (pyMean values)
    median := round2 (pyMedian values)
    std := if 1 < n then roundToR 2 (sampleStd values) else 0
    p25 := round2 (sorted_vals.getD (n / 4) 0)
    p75 := round2 (sorted_vals.getD (3 * n / 4) 0)
    min := round2 (pyMin values)
    max := round2 (pyMax values) }

/-- The fixed 12-entry chromatic table, index 0 = C through 11 = B. -/
def KEY_NAMES : List String :=
  ["C", "C#", "D", "D#", "E", "F"] ++ ["F#", "G", "G#", "A", "A#", "B"]

def collectKeys (tracks : List Track) : List ℕ :=
  tracks.filterMap fun t => t.audio_features.bind (·.key)

def collectModes (tracks : List Track) : List ℕ :=
  tracks.filterMap fun t => t.audio_features.bind (·.mode)

def collectDurations (tracks : List Track) : List ℚ :=
  tracks.filterMap fun t => t.audio_features.bind (·.duration_ms)

/-- Output of `aggregate_audio_features`.  The source returns a dict; a
feature key is omitted entirely when no values were collected
(`features f = none`), and the remaining keys are only present for
non-empty input (`none` exactly on the empty-input `{}` return). -/
structure AggregateResult where
  features : FeatName → Option FeatureStats
  key_distribution : Option (List (String × ℚ))
  mode_split : Option (ℚ × ℚ)
  avg_duration_sec : Option ℚ
  low_valence_pct : Option ℚ

/-- Function `aggregate_audio_features`.  (`key_distribution` indexes `KEY_NAMES`
directly in the source, which assumes observed keys lie in 0..11; the
embedding uses `getD` with an unreachable default.) -/
noncomputable def aggregate_audio_features (tracks : List Track) : AggregateResult :=
  if tracks = [] then
    { features := fun _ => none, key_distribution := none, mode_split := none
      avg_duration_sec := none, low_valence_pct := none }
  else
    let keys := collectKeys tracks
    let modes := collectModes tracks
    let durations := collectDurations tracks
    let valence_values := collectFeature tracks .valence
    { features := fun f =>
        let values := collectFeature tracks f
        if values = [] then none else some (featureStats values)
      key_distribution := some <|
        if keys = [] then []
        else (keys.dedup.insertionSort (· ≤ ·)).map fun k =>
          (KEY_NAMES.getD k "", round2 ((keys.count k : ℚ) / keys.length))
      mode_split := some <|
        if modes = [] then (0, 0)
        else (round2 ((modes.count 1 : ℚ) / modes.length),
              round2 ((modes.count 0 : ℚ) / modes.length))
      avg_duration_sec := some <|
        if durations = [] then 0 else roundTo 0 (pyMean durations / 1000)
      low_valence_pct := some <|
        if valence_values = [] then 0
        else round1 (((valence_values.countP (· < 35/100) : ℚ) /
          valence_values.length) * 100) }

/-! ### Diversity scorer (`compute_diversity_index`) -/

/-- The artist identity of a track: its first artist, when any. -/
def firstArtist (t : Track) : Option String :=
  match t.artists with
  | [] => none
  | a :: _ => some a

/-- The artist-identity list collected by the diversity scorer (tracks with
a falsy/empty `artists` value are skipped). -/
def artistsOf (tracks : List Track) : List String :=
  tracks.filterMap firstArtist

/-- The Shannon entropy loop over `Counter(artists).values()`:
`entropy -= p * log p` for the relative frequency `p` of each distinct item
(guarded by `p > 0`). -/
noncomputable def shannonEntropy (items : List String) : ℝ :=
  (items.dedup.map fun a =>
    let p : ℝ := (items.count a : ℝ) / items.length
    if 0 < p then -(p * Real.log p) else 0).sum

/-- Normalized artist entropy: entropy over the first-artist frequency
distribution divided by `log(unique_artists)`, 0 when fewer than 2 unique
artists (or no artists), guarded by `max_entropy > 0` as in the source. -/
noncomputable def artistEntropyNormalized (artists : List String) : ℝ :=
  let unique_artists := artists.dedup.length
  if 1 < unique_artists ∧ 0 < artists.length then
    let max_entropy := Real.log unique_artists
    if 0 < max_entropy then shannonEntropy artists / max_entropy else 0
  else 0

/-- The coefficient-of-variation loop: for each of tempo/energy/valence/
danceability with at least 2 collected values and positive mean, `std/mean`
capped at 1. -/
noncomputable def cvScores (tracks : List Track) : List ℝ :=
  [FeatName.tempo, .energy, .valence, .danceability].filterMap fun f =>
    let values := collectFeature tracks f
    if 1 < values.length then
      let mean_val := pyMean values
      if 0 < mean_val then some (min (sampleStd values / (mean_val : ℝ)) 1)
      else none
    else none

/-- Truthy `t.get("track_id")` (absent and empty-string ids are falsy). -/
def truthyTrackId (t : Track) : Option String :=
  match t.track_id with
  | none => none
  | some s => if s = "" then none else some s

/-- The list `[t.get("track_id") for t in tracks if t.get("track_id")]`. -/
def trackIdsOf (tracks : List Track) : List String :=
  tracks.filterMap truthyTrackId

/-- Output of `compute_diversity_index`. -/
structure DiversityResult where
  diversity_index : ℤ
  artist_entropy_normalized : ℝ
  feature_variance_score : ℝ
  repeat_ratio : ℚ
  unique_artists : ℕ
  unique_tracks : ℕ
  total_tracks : ℕ

/-- Function `compute_diversity_index`: 0-100 diversity index from artist entropy,
feature coefficient of variation (falling back to the supplied genre
diversity when no audio features qualify) and track-repeat ratio. -/
noncomputable def compute_diversity_index (tracks : List Track)
    (genre_diversity : Option ℚ := none) : DiversityResult :=
  if tracks = [] then
    { diversity_index := 0, artist_entropy_normalized := 0
      feature_variance_score := 0, repeat_ratio := 0
      unique_artists := 0, unique_tracks := 0, total_tracks := 0 }
  else
    let artists := artistsOf tracks
    let unique_artists := if artists = [] then 0 else artists.dedup.length
    let aen := artistEntropyNormalized artists
    let cv_scores := cvScores tracks
    let fv : ℝ × Bool :=
      if cv_scores ≠ [] then ((cv_scores.sum / cv_scores.length : ℝ), true)
      else match genre_diversity with
        | some g => ((g : ℝ), false)
        | none => (0, false)
    let feature_variance_score := fv.1
    let has_features := fv.2
    let track_ids := trackIdsOf tracks
    let unique_tracks := if track_ids = [] then 0 else track_ids.dedup.length
    let total_tracks := if track_ids = [] then tracks.length else track_ids.length
    let repeat_ratio : ℚ :=
      if 0 < total_tracks then 1 - (unique_tracks : ℚ) / total_tracks else 0
    let diversity_score : ℝ :=
      if has_features then
        (4/10) * aen + (4/10) * feature_variance_score +
          (2/10) * ((1 - repeat_ratio : ℚ) : ℝ)
      else
        (6/10) * aen + (2/10) * feature_variance_score +
          (2/10) * ((1 - repeat_ratio : ℚ) : ℝ)
    { diversity_index := pyRoundR (diversity_score * 100)
      artist_entropy_normalized := roundToR 2 aen
      feature_variance_score := roundToR 2 feature_variance_score
      repeat_ratio := round2 repeat_ratio
      unique_artists := unique_artists
      unique_tracks := unique_tracks
      total_tracks := total_tracks }

/-- Function `classify_dimension`: fixed threshold tables, strict `<` on the listed
boundaries, defensive `"Unknown"` for an unrecognized dimension name. -/
def classify_dimension (name : String) (value : ℚ) : String :=
  if name = "emotional_tone" then
    if value < 3/10 then "Melancholic"
    else if value < 45/100 then "Reflective"
    else if value < 6/10 then "Balanced"
    else if value < 75/100 then "Positive"
    else "Euphoric"
  else if name = "energy_level" then
    if value < 35/100 then "Low Energy"
    else if value < 55/100 then "Moderate Energy"
    else if value < 7/10 then "Elevated Energy"
    else if value < 85/100 then "High Energy"
    else "Intense Energy"
  else if name = "musical_complexity" then
    if value < 2/10 then "Digital/Electronic"
    else if value < 4/10 then "Electronic-Leaning"
    else if value < 6/10 then "Electronic-Acoustic Mix"
    else if value < 8/10 then "Acoustic-Leaning"
    else "Acoustic/Organic"
  else if name = "tempo_preference" then
    if value < 100 then "Slow"
    else if value < 115 then "Moderate"
    else if value < 128 then "Groovy"
    else if value < 140 then "Upbeat"
    else "Fast"
  else if name = "diversity" then
    if value < 30 then "Focused"
    else if value < 50 then "Consistent"
    else if value < 65 then "Balanced"
    else if value < 80 then "Eclectic"
    else "Wildly Eclectic"
  else "Unknown"

/-! ### Temporal analyzer (`src/analyzers/temporal_analyzer.py`)

Timestamp parsing is delegated to the (out-of-scope) standard library:
`datetime.fromisoformat(played_at.replace("Z", "+00:00")).hour` wrapped in
`try/except`.  The embedding abstracts that whole expression as a function
`parseHour : String → Option (Fin 24)`: `none` models a raised
`ValueError`/`AttributeError` (skipped track), `some h` the extracted local
hour, which `datetime` guarantees lies in 0..23. -/

/-- Per-period average features (`_compute_period_avg_features` output). -/
structure PeriodAvg where
  tempo : ℚ
  energy : ℚ
  valence : ℚ
  deriving DecidableEq, Repr

/-- Circadian shift record. -/
structure CircadianShift where
  tempo_delta : ℚ
  energy_delta : ℚ
  valence_delta : ℚ
  deriving DecidableEq, Repr

/-- Output of `analyze_temporal_patterns`. -/
structure TemporalProfile where
  hour_distribution : List ℕ
  peak_hour : Option ℕ
  morning_hours : List ℕ
  evening_hours : List ℕ
  morning_avg_features : Option PeriodAvg
  evening_avg_features : Option PeriodAvg
  circadian_shift : Option CircadianShift
  total_tracks_with_timestamps : ℕ
  deriving DecidableEq, Repr

/-- Helper `_compute_period_avg_features`: `none` for an empty track list and when
no tempo/energy/valence value is observed at all; otherwise per-feature
means (rounded to 2 decimals), each defaulting to `0.0` when that feature
was never observed. -/
def compute_period_avg_features (tracks : List Track) : Option PeriodAvg :=
  if tracks = [] then none
  else
    let tempo_vals := collectFeature tracks .tempo
    let energy_vals := collectFeature tracks .energy
    let valence_vals := collectFeature tracks .valence
    if tempo_vals = [] ∧ energy_vals = [] ∧ valence_vals = [] then none
    else some
      { tempo := if tempo_vals = [] then 0 else round2 (pyMean tempo_vals)
        energy := if energy_vals = [] then 0 else round2 (pyMean energy_vals)
        valence := if valence_vals = [] then 0 else round2 (pyMean valence_vals) }

/-- The parsed hour of one track: `none` when `played_at` is missing or
falsy (empty string) or the parse raises. -/
def parsedHour (parseHour : String → Option (Fin 24)) (t : Track) :
    Option (Fin 24) :=
  match t.played_at with
  | none => none
  | some s => if s = "" then none else parseHour s

/-- State of the binning loop: histogram, valid-track count, morning and
evening track lists. -/
structure BinState where
  hour_distribution : List ℕ
  valid_tracks : ℕ
  morning_tracks : List Track
  evening_tracks : List Track

/-- One iteration of the binning loop. -/
def binStep (parseHour : String → Option (Fin 24)) (st : BinState)
    (t : Track) : BinState :=
  match parsedHour parseHour t with
  | none => st
  | some hour =>
    { hour_distribution :=
        st.hour_distribution.set hour (st.hour_distribution.getD hour 0 + 1)
      valid_tracks := st.valid_tracks + 1
      morning_tracks :=
        if 6 ≤ (hour : ℕ) ∧ (hour : ℕ) ≤ 11 then st.morning_tracks ++ [t]
        else st.morning_tracks
      evening_tracks :=
        if ¬(6 ≤ (hour : ℕ) ∧ (hour : ℕ) ≤ 11) ∧
            (18 ≤ (hour : ℕ) ∧ (hour : ℕ) ≤ 23) then
          st.evening_tracks ++ [t]
        else st.evening_tracks }

/-- Python `max(hour_distribution)` followed by `.index(...)`: the index of
the first maximum bucket. -/
def peakHourOf (hist : List ℕ) : ℕ :=
  hist.indexOf (hist.foldr Nat.max 0)

/-- Function `analyze_temporal_patterns`. -/
def analyze_temporal_patterns (parseHour : String → Option (Fin 24))
    (tracks_with_timestamps : List Track) : TemporalProfile :=
  if tracks_with_timestamps = [] then
    { hour_distribution := List.replicate 24 0
      peak_hour := none
      morning_hours := List.range' 6 6
      evening_hours := List.range' 18 6
      morning_avg_features := none
      evening_avg_features := none
      circadian_shift := none
      total_tracks_with_timestamps := 0 }
  else
    let st := tracks_with_timestamps.foldl (binStep parseHour)
      ⟨List.replicate 24 0, 0, [], []⟩
    let peak_hour :=
      if st.hour_distribution.any (· ≠ 0) then
        some (peakHourOf st.hour_distribution)
      else none
    let morning_avg := compute_period_avg_features st.morning_tracks
    let evening_avg := compute_period_avg_features st.evening_tracks
    let circadian_shift :=
      match morning_avg, evening_avg with
      | some m, some e => some
        { tempo_delta := round2 (e.tempo - m.tempo)
          energy_delta := round2 (e.energy - m.energy)
          valence_delta := round2 (e.valence - m.valence) }
      | _, _ => none
    { hour_distribution := st.hour_distribution
      peak_hour := peak_hour
      morning_hours := List.range' 6 6
      evening_hours := List.range' 18 6
      morning_avg_features := morning_avg
      evening_avg_features := evening_avg
      circadian_shift := circadian_shift
      total_tracks_with_timestamps := st.valid_tracks }

/-! ### Metric accessors of the correlator (the chained `.get` reads) -/

/-- Read `sonic.get("audio_features", {}).get("tempo", {}).get("mean", 0)`. -/
def avgTempo (s : SonicDNA) : ℚ :=
  ((s.audio_features.getD {}).tempo.getD {}).mean.getD 0

/-- Read `...get("valence", {}).get("mean", 0)`. -/
def avgValence (s : SonicDNA) : ℚ :=
  ((s.audio_features.getD {}).valence.getD {}).mean.getD 0

/-- Read `...get("valence", {}).get("std", 0)`. -/
def valenceStd (s : SonicDNA) : ℚ :=
  ((s.audio_features.getD {}).valence.getD {}).std.getD 0

/-- Read `sonic.get("diversity", {}).get("diversity_index", 0)`. -/
def divIndexOf (s : SonicDNA) : ℚ :=
  (s.diversity.getD {}).diversity_index.getD 0

/-- Read `sonic.get("diversity", {}).get("repeat_ratio", 0)`. -/
def repeatRatioOf (s : SonicDNA) : ℚ :=
  (s.diversity.getD {}).repeat_ratio.getD 0

/-- Read `sonic.get("audio_features", {}).get("low_valence_pct", 0)`. -/
def lowValencePct (s : SonicDNA) : ℚ :=
  (s.audio_features.getD {}).low_valence_pct.getD 0

/-! ## Claims -/

/-- C1 counterexample: `correlate_drd2_repeat_plays` does NOT return null
when its computed metric (`repeat_ratio`) is 0 — the source has no
0-sentinel check for this rule, so with a DRD2 finding present and
`repeat_ratio = 0` it produces a result. -/
theorem c1_counterexample :
    repeatRatioOf { diversity := some { repeat_ratio := some 0 } } = 0 ∧
    correlate_drd2_repeat_plays
      { diversity := some { repeat_ratio := some 0 } }
      { genes := [("DRD2", ⟨"normal"⟩)] } ≠ none := by
  constructor
  · rfl
  · decide

/-- C1 (amended): each rule returns null when its required gene key is
absent; `correlate_chronotype_hours` returns null when the chronotype block
or the temporal profile is absent or `peak_hour` is null; and every rule
with a 0-sentinel check on its computed metric (tempo mean, valence mean,
diversity index, valence std, low-valence pct — but NOT
`correlate_drd2_repeat_plays`, which has no such check) returns null when
that metric is 0. -/
theorem c1_null_contracts (s : SonicDNA) (g : GenomeContext)
    (t : Option TemporalInfo) :
    (g.genes.lookup "CYP1A2" = none → correlate_caffeine_tempo s g = none) ∧
    (avgTempo s = 0 → correlate_caffeine_tempo s g = none) ∧
    (g.genes.lookup "COMT" = none → correlate_comt_valence s g = none) ∧
    (avgValence s = 0 → correlate_comt_valence s g = none) ∧
    (g.genes.lookup "BDNF" = none → correlate_bdnf_diversity s g = none) ∧
    (divIndexOf s = 0 → correlate_bdnf_diversity s g = none) ∧
    (g.genes.lookup "SLC6A4" = none →
      correlate_serotonin_emotional_range s g = none) ∧
    (valenceStd s = 0 → correlate_serotonin_emotional_range s g = none) ∧
    (g.genes.lookup "OPRM1" = none → correlate_oprm1_sad_music s g = none) ∧
    (lowValencePct s = 0 → correlate_oprm1_sad_music s g = none) ∧
    (g.chronotype = none ∨ t = none → correlate_chronotype_hours g t = none) ∧
    (∀ ti, t = some ti → ti.peak_hour = none →
      correlate_chronotype_hours g t = none) ∧
    (g.genes.lookup "DRD2" = none ∧ g.genes.lookup "ANKK1" = none →
      correlate_drd2_repeat_plays s g = none) := by
  refine ⟨?_, ?_, ?_, ?_, ?_, ?_, ?_, ?_, ?_, ?_, ?_, ?_, ?_⟩
  · intro h; simp [correlate_caffeine_tempo, h]
  · intro h
    rcases hg : g.genes.lookup "CYP1A2" with _ | gi
    · simp [correlate_caffeine_tempo, hg]
    · simp only [avgTempo] at h
      simp [correlate_caffeine_tempo, hg, h]
  · intro h; simp [correlate_comt_valence, h]
  · intro h
    rcases hg : g.genes.lookup "COMT" with _ | gi
    · simp [correlate_comt_valence, hg]
    · simp only [avgValence] at h
      simp [correlate_comt_valence, hg, h]
  · intro h; simp [correlate_bdnf_diversity, h]
  · intro h
    rcases hg : g.genes.lookup "BDNF" with _ | gi
    · simp [correlate_bdnf_diversity, hg]
    · simp only [divIndexOf] at h
      simp [correlate_bdnf_diversity, hg, h]
  · intro h; simp [correlate_serotonin_emotional_range, h]
  · intro h
    rcases hg : g.genes.lookup "SLC6A4" with _ | gi
    · simp [correlate_serotonin_emotional_range, hg]
    · simp only [valenceStd] at h
      simp [correlate_serotonin_emotional_range, hg, h]
  · intro h; simp [correlate_oprm1_sad_music, h]
  · intro h
    rcases hg : g.genes.lookup "OPRM1" with _ | gi
    · simp [correlate_oprm1_sad_music, hg]
    · simp only [lowValencePct] at h
      simp [correlate_oprm1_sad_music, hg, h]
  · rintro (h | h)
    · simp [correlate_chronotype_hours, h]
    · subst h
      rcases hc : g.chronotype with _ | ch <;>
        simp [correlate_chronotype_hours, hc]
  · rintro ti rfl h
    rcases hc : g.chronotype with _ | ch
    · simp [correlate_chronotype_hours, hc]
    · simp [correlate_chronotype_hours, hc, h]
  · rintro ⟨h1, h2⟩; simp [correlate_drd2_repeat_plays, h1, h2]

/-- C1 witness: at concrete inputs, a missing CYP1A2 key, a zero tempo mean
and a zero repeat... (absence of DRD2/ANKK1) all yield null. -/
theorem c1_witness :
    correlate_caffeine_tempo {} {} = none ∧
    correlate_chronotype_hours {} none = none ∧
    correlate_drd2_repeat_plays {} {} = none :=
  ⟨(c1_null_contracts {} {} none).1 rfl,
   (c1_null_contracts {} {} none).2.2.2.2.2.2.2.2.2.2.1 (Or.inl rfl),
   (c1_null_contracts {} {} none).2.2.2.2.2.2.2.2.2.2.2.2 ⟨rfl, rfl⟩⟩

/-- C4 counterexample: `classify_dimension("energy_level", v)` does not
return the bare labels of the claim ("Low", "Moderate", ...): at `v = 0.2`
it returns `"Low Energy"`, not `"Low"`. -/
theorem c4_counterexample :
    classify_dimension "energy_level" (2/10) ≠ "Low" ∧
    classify_dimension "energy_level" (2/10) = "Low Energy" := by
  constructor <;> norm_num [classify_dimension] <;> decide

/-- C4 (amended): classification is by strict-less-than thresholds with a
boundary value taking the upper bucket (`tempo_preference` at exactly 100
is "Moderate", not "Slow"), and the `energy_level` labels carry the
" Energy" suffix: "Low Energy" for v < 0.35, "Moderate Energy" for
0.35 ≤ v < 0.55, "Elevated Energy" for 0.55 ≤ v < 0.7, "High Energy" for
0.7 ≤ v < 0.85, and "Intense Energy" otherwise. -/
theorem c4_classify_boundaries :
    classify_dimension "tempo_preference" 100 = "Moderate" ∧
    ∀ v : ℚ,
      (v < 35/100 → classify_dimension "energy_level" v = "Low Energy") ∧
      (35/100 ≤ v → v < 55/100 →
        classify_dimension "energy_level" v = "Moderate Energy") ∧
      (55/100 ≤ v → v < 7/10 →
        classify_dimension "energy_level" v = "Elevated Energy") ∧
      (7/10 ≤ v → v < 85/100 →
        classify_dimension "energy_level" v = "High Energy") ∧
      (85/100 ≤ v → classify_dimension "energy_level" v = "Intense Energy") := by
  refine ⟨by norm_num [classify_dimension]; decide, fun v => ⟨?_, ?_, ?_, ?_, ?_⟩⟩
  · intro h; simp [classify_dimension, h]
  · intro h1 h2
    have ha : ¬(v < 35/100) := by linarith
    simp [classify_dimension, h2, ha]
  · intro h1 h2
    have ha : ¬(v < 35/100) := by linarith
    have hb : ¬(v < 55/100) := by linarith
    simp [classify_dimension, h2, ha, hb]
  · intro h1 h2
    have ha : ¬(v < 35/100) := by linarith
    have hb : ¬(v < 55/100) := by linarith
    have hc : ¬(v < 7/10) := by linarith
    simp [classify_dimension, h2, ha, hb, hc]
  · intro h1
    have ha : ¬(v < 35/100) := by linarith
    have hb : ¬(v < 55/100) := by linarith
    have hc : ¬(v < 7/10) := by linarith
    have hd : ¬(v < 85/100) := by linarith
    simp [classify_dimension, ha, hb, hc, hd]

/-- C4 witness: concrete values in each energy bucket. -/
theorem c4_witness :
    classify_dimension "energy_level" (2/10) = "Low Energy" ∧
    classify_dimension "energy_level" (1/2) = "Moderate Energy" ∧
    classify_dimension "energy_level" (6/10) = "Elevated Energy" ∧
    classify_dimension "energy_level" (3/4) = "High Energy" ∧
    classify_dimension "energy_level" (9/10) = "Intense Energy" :=
  ⟨(c4_classify_boundaries.2 _).1 (by norm_num),
   (c4_classify_boundaries.2 _).2.1 (by norm_num) (by norm_num),
   (c4_classify_boundaries.2 _).2.2.1 (by norm_num) (by norm_num),
   (c4_classify_boundaries.2 _).2.2.2.1 (by norm_num) (by norm_num),
   (c4_classify_boundaries.2 _).2.2.2.2 (by norm_num)⟩

/-- C9: a gene-based rule never fails on an unexpected gene status: with any
status string and a nonzero metric, `correlate_caffeine_tempo` returns a
complete result, and when the status is outside its table the verdict is
computed from the wide default range `{min: 0, max: 999}`;
`correlate_drd2_repeat_plays` likewise returns a complete result for any
status whenever DRD2 is present. -/
theorem c9_unknown_status_fallback (s : SonicDNA) (g : GenomeContext)
    (gi : GeneInfo) :
    (g.genes.lookup "CYP1A2" = some gi → avgTempo s ≠ 0 →
      ∃ r, correlate_caffeine_tempo s g = some r ∧
        r.gene_status = gi.status ∧ r.confidence = "weak" ∧
        (caffeineRanges.lookup gi.status = none →
          r.verdict =
            if (0:ℚ) ≤ avgTempo s ∧ avgTempo s ≤ 999 then Verdict.inRange
            else if (999:ℚ) < avgTempo s then Verdict.aboveMax
            else Verdict.belowMin)) ∧
    (g.genes.lookup "DRD2" = some gi →
      ∃ r, correlate_drd2_repeat_plays s g = some r ∧
        r.gene_status = gi.status ∧ r.confidence = "speculative") := by
  constructor
  · intro hg hne
    rw [avgTempo] at hne
    simp only [correlate_caffeine_tempo, hg, if_neg hne]
    refine ⟨_, rfl, rfl, rfl, ?_⟩
    intro hlk
    simp [make_result, hlk, avgTempo]
  · intro hg
    have hcond : ¬(g.genes.lookup "DRD2" = none ∧
        g.genes.lookup "ANKK1" = none) := by simp [hg]
    simp only [correlate_drd2_repeat_plays, if_neg hcond]
    simp [hg, make_result]

/-- C9 witness: a CYP1A2 finding with the unrecognized status "unknown" and
tempo mean 130 still yields a result, with the in-range verdict of the
0..999 default window; DRD2 with status "unknown" yields a result too. -/
theorem c9_witness :
    (∃ r, correlate_caffeine_tempo
        { audio_features := some { tempo := some { mean := some 130 } } }
        { genes := [("CYP1A2", ⟨"unknown"⟩)] } = some r ∧
      r.gene_status = "unknown" ∧ r.confidence = "weak" ∧ r.verdict = .inRange) ∧
    (∃ r, correlate_drd2_repeat_plays {} { genes := [("DRD2", ⟨"unknown"⟩)] } =
        some r ∧ r.gene_status = "unknown" ∧ r.confidence = "speculative") := by
  constructor
  · obtain ⟨r, hr, hst, hconf, hv⟩ :=
      (c9_unknown_status_fallback
        { audio_features := some { tempo := some { mean := some 130 } } }
        { genes := [("CYP1A2", ⟨"unknown"⟩)] } ⟨"unknown"⟩).1
        rfl (by norm_num [avgTempo])
    refine ⟨r, hr, hst, hconf, ?_⟩
    rw [hv rfl]
    norm_num [avgTempo]
  · exact (c9_unknown_status_fallback {} { genes := [("DRD2", ⟨"unknown"⟩)] }
      ⟨"unknown"⟩).2 rfl

/-- Evaluation of the `repeat_ratio` field for non-empty input (the
repeat-ratio block of `compute_diversity_index`, lines 319-323). -/
lemma repeat_ratio_eval (tracks : List Track) (gd : Option ℚ)
    (h : tracks ≠ []) :
    (compute_diversity_index tracks gd).repeat_ratio =
      round2 (if 0 < (if trackIdsOf tracks = [] then tracks.length
            else (trackIdsOf tracks).length) then
          1 - ((if trackIdsOf tracks = [] then 0
            else (trackIdsOf tracks).dedup.length : ℕ) : ℚ) /
            ((if trackIdsOf tracks = [] then tracks.length
              else (trackIdsOf tracks).length : ℕ) : ℚ)
        else 0) := by
  simp only [compute_diversity_index, if_neg h]

/-- C3 counterexample: with two tracks sharing id "a" and one id-less track,
the source computes `repeat_ratio = 0.5` (the id-less track is dropped from
both the unique count and the total), while the claimed formula — id-less
tracks counting individually as unique, contributing to the total — gives
`1 - 2/3`, which is not 0.5 even after rounding. -/
theorem c3_counterexample :
    (compute_diversity_index
      [{ track_id := some "a" }, { track_id := some "a" }, {}] none).repeat_ratio
      = 1/2 ∧
    round2 (1 - (2:ℚ)/3) ≠ 1/2 := by
  constructor
  · rw [repeat_ratio_eval _ _ (by simp)]
    have h1 : trackIdsOf
        [{ track_id := some "a" }, { track_id := some "a" }, {}] = ["a", "a"] :=
      rfl
    have h2 : (["a", "a"] : List String).dedup = ["a"] := rfl
    have h3 : (["a", "a"] : List String) ≠ [] := by simp
    rw [h1, h2]
    norm_num [round2, roundTo, pyRound, Int.fract, h3]
  · norm_num [round2, roundTo, pyRound, Int.fract]

/-- C3 (amended): when at least one track has a truthy `track_id`,
`repeat_ratio` is `round(1 - unique_ids / count_of_id-bearing_tracks, 2)` —
tracks without an id are excluded from both the unique count and the total;
when no track has an id, every (non-empty) input gets `repeat_ratio = 1.0`. -/
theorem c3_repeat_ratio (tracks : List Track) (gd : Option ℚ) :
    (trackIdsOf tracks ≠ [] →
      (compute_diversity_index tracks gd).repeat_ratio =
        round2 (1 - ((trackIdsOf tracks).dedup.length : ℚ) /
          (trackIdsOf tracks).length)) ∧
    (trackIdsOf tracks = [] → tracks ≠ [] →
      (compute_diversity_index tracks gd).repeat_ratio = 1) := by
  constructor
  · intro hids
    have htr : tracks ≠ [] := by
      intro h; exact hids (by simp [h, trackIdsOf])
    have hpos : 0 < (trackIdsOf tracks).length := List.length_pos.mpr hids
    rw [repeat_ratio_eval _ _ htr]
    simp [hids, hpos]
  · intro hids htr
    have hpos : 0 < tracks.length := List.length_pos.mpr htr
    rw [repeat_ratio_eval _ _ htr]
    simp only [hids, if_pos, Nat.cast_zero, if_true, hpos]
    norm_num [round2, roundTo, pyRound]

/-- C3 witness: two tracks sharing one id give `repeat_ratio = round(1 - 1/2, 2)`;
two id-less tracks give `repeat_ratio = 1`. -/
theorem c3_witness :
    (compute_diversity_index
        [{ track_id := some "a" }, { track_id := some "a" }] none).repeat_ratio =
      round2 (1 - ((trackIdsOf [{ track_id := some "a" },
        { track_id := some "a" }]).dedup.length : ℚ) /
        (trackIdsOf [{ track_id := some "a" }, { track_id := some "a" }]).length) ∧
    (compute_diversity_index [({} : Track), {}] none).repeat_ratio = 1 :=
  ⟨(c3_repeat_ratio _ none).1 (by simp [trackIdsOf, truthyTrackId]),
   (c3_repeat_ratio _ none).2 (by simp [trackIdsOf, truthyTrackId]) (by simp)⟩

/-! ### Stable sorting by confidence rank -/

lemma orderedInsert_append_of_forall_not {α : Type} (r : α → α → Prop)
    [DecidableRel r] (a : α) (xs ys : List α) (h : ∀ x ∈ xs, ¬ r a x) :
    (xs ++ ys).orderedInsert r a = xs ++ ys.orderedInsert r a := by
  induction xs with
  | nil => simp
  | cons x xs ih =>
    simp only [List.cons_append, List.orderedInsert, List.append_eq]
    rw [if_neg (h x (by simp))]
    rw [ih (fun x hx => h x (by simp [hx]))]

lemma orderedInsert_eq_cons_of_forall {α : Type} (r : α → α → Prop)
    [DecidableRel r] (a : α) (ys : List α) (h : ∀ y ∈ ys, r a y) :
    ys.orderedInsert r a = a :: ys := by
  cases ys with
  | nil => rfl
  | cons y ys =>
    simp only [List.orderedInsert]
    rw [if_pos (h y (by simp))]

lemma confRank_cases (c : String) :
    confRank c = 0 ∨ confRank c = 1 ∨ confRank c = 2 ∨ confRank c = 3 := by
  by_cases h1 : c = "moderate" <;> by_cases h2 : c = "weak" <;>
    by_cases h3 : c = "speculative" <;>
    simp only [confRank, confidenceOrder, List.lookup,
      show ((c == "moderate") = decide (c = "moderate")) from rfl,
      show ((c == "weak") = decide (c = "weak")) from rfl,
      show ((c == "speculative") = decide (c = "speculative")) from rfl,
      h1, h2, h3, decide_True, decide_False, Option.getD] <;> simp

/-- Inserting into the rank-sorted blocks with the non-strict comparison
places the new element at the head of its own rank block: `insertionSort`
by confidence rank is exactly the stable sort by rank. -/
lemma insertionSort_confRank (l : List CorrelationResult) :
    l.insertionSort (fun a b => confRank a.confidence ≤ confRank b.confidence) =
      l.filter (fun x => confRank x.confidence = 0) ++
      l.filter (fun x => confRank x.confidence = 1) ++
      l.filter (fun x => confRank x.confidence = 2) ++
      l.filter (fun x => 2 < confRank x.confidence) := by
  induction l with
  | nil => rfl
  | cons a l ih =>
    have hmem : ∀ (k : ℕ) (x : CorrelationResult),
        x ∈ l.filter (fun x => confRank x.confidence = k) →
        confRank x.confidence = k := by
      intro k x hx
      simpa using (List.mem_filter.mp hx).2
    have hmem3 : ∀ x ∈ l.filter (fun x => 2 < confRank x.confidence),
        2 < confRank x.confidence := by
      intro x hx
      simpa using (List.mem_filter.mp hx).2
    simp only [List.insertionSort, ih]
    rcases confRank_cases a.confidence with h | h | h | h
    · rw [orderedInsert_eq_cons_of_forall _ _ _
        (fun y _ => by rw [h]; exact Nat.zero_le _)]
      simp [List.filter_cons, h]
    · rw [List.append_assoc, List.append_assoc,
        orderedInsert_append_of_forall_not _ _ _ _
          (fun x hx => by rw [h, hmem 0 x hx]; omega),
        orderedInsert_eq_cons_of_forall _ _ _ ?_]
      · simp [List.filter_cons, h]
      · intro y hy
        rw [h]
        rcases List.mem_append.mp hy with hy | hy
        · rw [hmem 1 y hy]
        · rcases List.mem_append.mp hy with hy | hy
          · rw [hmem 2 y hy]; omega
          · have := hmem3 y hy; omega
    · rw [List.append_assoc,
        orderedInsert_append_of_forall_not _ _ _ _ ?xs,
        orderedInsert_eq_cons_of_forall _ _ _ ?ys]
      case xs =>
        intro x hx
        rcases List.mem_append.mp hx with hx | hx
        · rw [h, hmem 0 x hx]; omega
        · rw [h, hmem 1 x hx]; omega
      case ys =>
        intro y hy
        rw [h]
        rcases List.mem_append.mp hy with hy | hy
        · rw [hmem 2 y hy]
        · have := hmem3 y hy; omega
      simp [List.filter_cons, h]
    · rw [orderedInsert_append_of_forall_not _ _ _ _ ?xs,
        orderedInsert_eq_cons_of_forall _ _ _ ?ys]
      case xs =>
        intro x hx
        rcases List.mem_append.mp hx with hx | hx
        · rcases List.mem_append.mp hx with hx | hx
          · rw [h, hmem 0 x hx]; omega
          · rw [h, hmem 1 x hx]; omega
        · rw [h, hmem 2 x hx]; omega
      case ys =>
        intro y hy
        rw [h]
        have := hmem3 y hy; omega
      simp [List.filter_cons, h]

/-- C2: `run_all` returns exactly the non-null results of the 7 rules
(collected in rule-definition order), stably sorted by confidence rank —
equal to the rank-0 block, then rank-1, then rank-2, then the unrecognized
block, each in collection order; any unrecognized confidence ranks 3 (after
the three known labels); the output is pairwise rank-sorted, and hence no
"speculative" entry ever precedes a "moderate" or "weak" one. -/
theorem c2_run_all_sorted (s : SonicDNA) (g : GenomeContext)
    (t : Option TemporalInfo) :
    (run_all s g t =
      (collectResults s g t).filter (fun x => confRank x.confidence = 0) ++
      (collectResults s g t).filter (fun x => confRank x.confidence = 1) ++
      (collectResults s g t).filter (fun x => confRank x.confidence = 2) ++
      (collectResults s g t).filter (fun x => 2 < confRank x.confidence)) ∧
    (∀ c : String, c ≠ "moderate" → c ≠ "weak" → c ≠ "speculative" →
      confRank c = 3) ∧
    (run_all s g t).Pairwise
      (fun a b => confRank a.confidence ≤ confRank b.confidence) ∧
    (∀ i j : Fin (run_all s g t).length, i < j →
      ((run_all s g t).get i).confidence = "speculative" →
      ((run_all s g t).get j).confidence ≠ "moderate" ∧
      ((run_all s g t).get j).confidence ≠ "weak") := by
  have hsorted : (run_all s g t).Pairwise
      (fun a b => confRank a.confidence ≤ confRank b.confidence) := by
    have ht : IsTotal CorrelationResult
        (fun a b => confRank a.confidence ≤ confRank b.confidence) :=
      ⟨fun a b => Nat.le_total _ _⟩
    have htr : IsTrans CorrelationResult
        (fun a b => confRank a.confidence ≤ confRank b.confidence) :=
      ⟨fun _ _ _ => Nat.le_trans⟩
    exact List.sorted_insertionSort _ _
  refine ⟨insertionSort_confRank _, ?_, hsorted, ?_⟩
  · intro c h1 h2 h3
    simp only [confRank, confidenceOrder, List.lookup,
      show ((c == "moderate") = decide (c = "moderate")) from rfl,
      show ((c == "weak") = decide (c = "weak")) from rfl,
      show ((c == "speculative") = decide (c = "speculative")) from rfl,
      h1, h2, h3, decide_False, Option.getD]
  · intro i j hij hi
    have hrank := List.pairwise_iff_get.mp hsorted i j hij
    rw [hi] at hrank
    have h2 : confRank "speculative" = 2 := by
      simp [confRank, confidenceOrder, List.lookup]
    rw [h2] at hrank
    constructor
    · intro hj
      rw [hj] at hrank
      simp [confRank, confidenceOrder, List.lookup] at hrank
    · intro hj
      rw [hj] at hrank
      simp [confRank, confidenceOrder, List.lookup] at hrank

/-- C2 witness: with a genome containing CYP1A2 (weak rule), a chronotype
with temporal peak (moderate rule) and COMT (speculative rule), `run_all`
returns the moderate result first, then weak, then speculative; and the
unrecognized label "bogus" ranks 3. -/
theorem c2_witness :
    (∀ s g t, run_all s g t =
      (collectResults s g t).filter (fun x => confRank x.confidence = 0) ++
      (collectResults s g t).filter (fun x => confRank x.confidence = 1) ++
      (collectResults s g t).filter (fun x => confRank x.confidence = 2) ++
      (collectResults s g t).filter (fun x => 2 < confRank x.confidence)) ∧
    confRank "bogus" = 3 :=
  ⟨fun s g t => (c2_run_all_sorted s g t).1,
   (c2_run_all_sorted {} {} none).2.1 "bogus" (by decide) (by decide) (by decide)⟩

/-! ### Histogram bookkeeping for the temporal analyzer -/

lemma getD_set_self (l : List ℕ) (i : ℕ) (hi : i < l.length) (v : ℕ) :
    (l.set i v).getD i 0 = v := by
  rw [List.getD_eq_getElem _ _ (by simpa using hi)]
  exact List.getElem_set_self _

lemma getD_set_ne (l : List ℕ) {i j : ℕ} (h : i ≠ j) (v : ℕ) :
    (l.set i v).getD j 0 = l.getD j 0 := by
  by_cases hj : j < l.length
  · rw [List.getD_eq_getElem _ _ (by simpa using hj),
      List.getD_eq_getElem _ _ hj]
    exact List.getElem_set_ne h _
  · rw [List.getD_eq_default _ _ (by simpa using Nat.le_of_not_lt hj),
      List.getD_eq_default _ _ (Nat.le_of_not_lt hj)]

lemma getD_replicate_zero (n i : ℕ) : (List.replicate n 0).getD i 0 = 0 := by
  by_cases h : i < n
  · rw [List.getD_eq_getElem _ _
      (show i < (List.replicate n (0:ℕ)).length by
        rw [List.length_replicate]; exact h)]
    simp only [List.getElem_replicate]
  · rw [List.getD_eq_default _ _ (by rw [List.length_replicate]; omega)]

lemma sum_set_getD_succ (l : List ℕ) (i : ℕ) (hi : i < l.length) :
    (l.set i (l.getD i 0 + 1)).sum = l.sum + 1 := by
  induction l generalizing i with
  | nil => simp at hi
  | cons x xs ih =>
    cases i with
    | zero => simp [List.set]; omega
    | succ n =>
      simp only [List.set, List.getD_cons_succ, List.sum_cons]
      rw [ih n (by simpa using hi)]
      omega

/-- Invariant of the binning loop of `analyze_temporal_patterns`: the
histogram keeps its 24 buckets, each parsed track increments exactly the
bucket of its hour and the valid counter, and skipped tracks change
nothing. -/
lemma binFold_invariant (p : String → Option (Fin 24)) (tracks : List Track)
    (s0 : BinState) (hlen : s0.hour_distribution.length = 24) :
    ((tracks.foldl (binStep p) s0).hour_distribution.length = 24) ∧
    ((tracks.foldl (binStep p) s0).valid_tracks =
      s0.valid_tracks + tracks.countP (fun t => (parsedHour p t).isSome)) ∧
    ((tracks.foldl (binStep p) s0).hour_distribution.sum =
      s0.hour_distribution.sum +
        tracks.countP (fun t => (parsedHour p t).isSome)) ∧
    (∀ h : Fin 24, (tracks.foldl (binStep p) s0).hour_distribution.getD h 0 =
      s0.hour_distribution.getD h 0 +
        tracks.countP (fun t => parsedHour p t = some h)) := by
  induction tracks generalizing s0 with
  | nil => exact ⟨hlen, by simp, by simp, fun h => by simp⟩
  | cons t ts ih =>
    simp only [List.foldl_cons, List.countP_cons]
    rcases hp : parsedHour p t with _ | h0
    · have hstep : binStep p s0 t = s0 := by simp [binStep, hp]
      rw [hstep]
      obtain ⟨l1, l2, l3, l4⟩ := ih s0 hlen
      refine ⟨l1, ?_, ?_, ?_⟩
      · rw [l2]; simp [hp]
      · rw [l3]; simp [hp]
      · intro h; rw [l4 h]; simp [hp]
    · set s1 := binStep p s0 t with hs1
      have hhist : s1.hour_distribution =
          s0.hour_distribution.set h0 (s0.hour_distribution.getD h0 0 + 1) := by
        simp [hs1, binStep, hp]
      have hvalid : s1.valid_tracks = s0.valid_tracks + 1 := by
        simp [hs1, binStep, hp]
      have hlt : (h0 : ℕ) < s0.hour_distribution.length := by
        rw [hlen]; exact h0.isLt
      have hlen1 : s1.hour_distribution.length = 24 := by
        rw [hhist, List.length_set, hlen]
      obtain ⟨l1, l2, l3, l4⟩ := ih s1 hlen1
      refine ⟨l1, ?_, ?_, ?_⟩
      · rw [l2, hvalid]; simp [hp]; omega
      · rw [l3, hhist, sum_set_getD_succ _ _ hlt]; simp [hp]; omega
      · intro h
        rw [l4 h, hhist]
        by_cases hh : h0 = h
        · subst hh
          rw [getD_set_self _ _ hlt]
          simp [hp]
          omega
        · rw [getD_set_ne _ (fun e => hh (Fin.ext e)) _]
          simp [hp, hh]

/-- C10: the hour histogram has exactly 24 (non-negative, by type) buckets;
its sum equals `total_tracks_with_timestamps`; that total counts exactly
the tracks whose timestamp parses; and each bucket counts exactly the
tracks parsing to its hour — so a parsed track increments exactly one
bucket and the counter, and a missing/unparsable `played_at` contributes
to neither. -/
theorem c10_histogram_invariant (p : String → Option (Fin 24))
    (tracks : List Track) :
    (analyze_temporal_patterns p tracks).hour_distribution.length = 24 ∧
    (analyze_temporal_patterns p tracks).hour_distribution.sum =
      (analyze_temporal_patterns p tracks).total_tracks_with_timestamps ∧
    (analyze_temporal_patterns p tracks).total_tracks_with_timestamps =
      tracks.countP (fun t => (parsedHour p t).isSome) ∧
    (∀ h : Fin 24,
      (analyze_temporal_patterns p tracks).hour_distribution.getD h 0 =
        tracks.countP (fun t => parsedHour p t = some h)) := by
  by_cases htr : tracks = []
  · subst htr
    refine ⟨by simp [analyze_temporal_patterns],
      by simp [analyze_temporal_patterns, List.sum_replicate],
      by simp [analyze_temporal_patterns], ?_⟩
    intro h
    simp only [analyze_temporal_patterns, if_pos rfl, List.countP_nil]
    exact getD_replicate_zero 24 _
  · have hinv := binFold_invariant p tracks ⟨List.replicate 24 0, 0, [], []⟩
      (by simp)
    obtain ⟨l1, l2, l3, l4⟩ := hinv
    simp only [analyze_temporal_patterns, if_neg htr]
    refine ⟨l1, ?_, ?_, ?_⟩
    · rw [l3, l2]; simp [List.sum_replicate]
    · rw [l2]; simp
    · intro h
      rw [l4 h]
      rw [show ((⟨List.replicate 24 0, 0, [], []⟩ :
          BinState)).hour_distribution = List.replicate 24 0 from rfl,
        getD_replicate_zero 24 _, Nat.zero_add]

/-- C7: `circadian_shift` is null whenever either period average is null;
`peak_hour` is null iff no input track parses to an hour (all-zero
histogram, including empty input); and with both period averages present,
the shift is the per-feature evening-minus-morning delta, rounded to 2
decimals. -/
theorem c7_circadian_nulls (p : String → Option (Fin 24))
    (tracks : List Track) :
    ((analyze_temporal_patterns p tracks).morning_avg_features = none ∨
      (analyze_temporal_patterns p tracks).evening_avg_features = none →
      (analyze_temporal_patterns p tracks).circadian_shift = none) ∧
    ((analyze_temporal_patterns p tracks).peak_hour = none ↔
      ∀ t ∈ tracks, parsedHour p t = none) ∧
    ((analyze_temporal_patterns p tracks).peak_hour = none ↔
      ∀ x ∈ (analyze_temporal_patterns p tracks).hour_distribution, x = 0) ∧
    (∀ m e, (analyze_temporal_patterns p tracks).morning_avg_features = some m →
      (analyze_temporal_patterns p tracks).evening_avg_features = some e →
      (analyze_temporal_patterns p tracks).circadian_shift =
        some { tempo_delta := round2 (e.tempo - m.tempo)
               energy_delta := round2 (e.energy - m.energy)
               valence_delta := round2 (e.valence - m.valence) }) := by
  by_cases htr : tracks = []
  · subst htr
    refine ⟨fun _ => rfl, ?_, ?_, fun m e hm => by
      simp [analyze_temporal_patterns] at hm⟩
    · simp [analyze_temporal_patterns]
    · refine iff_of_true rfl ?_
      intro x hx
      simp only [analyze_temporal_patterns, if_pos rfl] at hx
      exact List.eq_of_mem_replicate hx
  · obtain ⟨-, -, l3, -⟩ := binFold_invariant p tracks
      ⟨List.replicate 24 0, 0, [], []⟩ (by simp)
    have hsum : (List.foldl (binStep p) ⟨List.replicate 24 0, 0, [], []⟩
        tracks).hour_distribution.sum =
        tracks.countP (fun t => (parsedHour p t).isSome) := by
      rw [l3]
      simp [List.sum_replicate]
    simp only [analyze_temporal_patterns, if_neg htr]
    refine ⟨?_, ?_, ?_, ?_⟩
    · rintro (h | h)
      · rw [h]
      · rw [h]
        cases compute_period_avg_features (List.foldl (binStep p)
          ⟨List.replicate 24 0, 0, [], []⟩ tracks).morning_tracks <;> rfl
    · by_cases hany : (List.foldl (binStep p)
          ⟨List.replicate 24 0, 0, [], []⟩ tracks).hour_distribution.any
          (· ≠ 0) = true
      · rw [if_pos hany]
        constructor
        · intro h; exact absurd h (by simp)
        · intro hall
          exfalso
          obtain ⟨x, hx, hx0⟩ := List.any_eq_true.mp hany
          have hxz : x = 0 := by
            refine List.sum_eq_zero_iff.mp ?_ x hx
            rw [hsum, List.countP_eq_zero]
            intro t ht
            simp [hall t ht]
          simp [hxz] at hx0
      · rw [if_neg hany]
        simp only [true_iff]
        have hall0 := List.any_eq_false.mp (Bool.of_not_eq_true hany)
        have hsum0 : tracks.countP (fun t => (parsedHour p t).isSome) = 0 := by
          rw [← hsum, List.sum_eq_zero_iff]
          intro x hx
          simpa using hall0 x hx
        intro t ht
        have := List.countP_eq_zero.mp hsum0 t ht
        exact Option.not_isSome_iff_eq_none.mp (by simpa using this)
    · by_cases hany : (List.foldl (binStep p)
          ⟨List.replicate 24 0, 0, [], []⟩ tracks).hour_distribution.any
          (· ≠ 0) = true
      · rw [if_pos hany]
        constructor
        · intro h; exact absurd h (by simp)
        · intro hall
          obtain ⟨x, hx, hx0⟩ := List.any_eq_true.mp hany
          exact absurd (hall x hx) (by simpa using hx0)
      · rw [if_neg hany]
        refine iff_of_true rfl ?_
        intro x hx
        have := List.any_eq_false.mp (Bool.of_not_eq_true hany) x hx
        simpa using this
    · intro m e hm he
      rw [hm, he]

/-- A concrete hour parser for witnesses: maps "08" to hour 8 and "20" to
hour 20, fails on everything else. -/
def witnessParse (s : String) : Option (Fin 24) :=
  if s = "08" then some 8 else if s = "20" then some 20 else none

/-- C7 witness: two tracks at hours 8 and 20 with tempo 100/130, energy
0.5/0.8, valence 0.4/0.6 give circadian shift {30, 0.3, 0.2}; and the
empty input has a null peak hour. -/
theorem c7_witness :
    (analyze_temporal_patterns witnessParse
      [{ played_at := some "08", audio_features := some
          { tempo := some 100, energy := some (1/2), valence := some (2/5) } },
       { played_at := some "20", audio_features := some
          { tempo := some 130, energy := some (4/5), valence := some (3/5) } }]
      ).circadian_shift =
      some { tempo_delta := 30, energy_delta := 3/10, valence_delta := 1/5 } ∧
    (analyze_temporal_patterns witnessParse []).peak_hour = none := by
  constructor
  · have hm : (analyze_temporal_patterns witnessParse
        [{ played_at := some "08", audio_features := some
            { tempo := some 100, energy := some (1/2), valence := some (2/5) } },
         { played_at := some "20", audio_features := some
            { tempo := some 130, energy := some (4/5), valence := some (3/5) } }]
        ).morning_avg_features =
        some { tempo := round2 (pyMean [100]), energy := round2 (pyMean [1/2]),
               valence := round2 (pyMean [2/5]) } := by
      rfl
    have he : (analyze_temporal_patterns witnessParse
        [{ played_at := some "08", audio_features := some
            { tempo := some 100, energy := some (1/2), valence := some (2/5) } },
         { played_at := some "20", audio_features := some
            { tempo := some 130, energy := some (4/5), valence := some (3/5) } }]
        ).evening_avg_features =
        some { tempo := round2 (pyMean [130]), energy := round2 (pyMean [4/5]),
               valence := round2 (pyMean [3/5]) } := by
      rfl
    rw [(c7_circadian_nulls witnessParse _).2.2.2 _ _ hm he]
    norm_num [round2, roundTo, pyRound, pyMean, Int.fract]
  · exact (c7_circadian_nulls witnessParse []).2.1.mpr (by simp)

/-! ### Monotonicity of Python rounding, and order statistics -/

lemma floor_le_pyRound (q : ℚ) : ⌊q⌋ ≤ pyRound q := by
  unfold pyRound; split_ifs <;> omega

lemma pyRound_le_floor_add_one (q : ℚ) : pyRound q ≤ ⌊q⌋ + 1 := by
  unfold pyRound; split_ifs <;> omega

lemma pyRound_mono {x y : ℚ} (h : x ≤ y) : pyRound x ≤ pyRound y := by
  rcases lt_or_eq_of_le (Int.floor_le_floor h) with hf | hf
  · have h1 := pyRound_le_floor_add_one x
    have h2 := floor_le_pyRound y
    omega
  · unfold pyRound
    rw [← hf]
    have hfx := Int.floor_le x
    split_ifs <;> first | omega | linarith

lemma roundTo_mono (n : ℕ) {x y : ℚ} (h : x ≤ y) : roundTo n x ≤ roundTo n y := by
  unfold roundTo
  have h1 : x * 10 ^ n ≤ y * 10 ^ n :=
    mul_le_mul_of_nonneg_right h (by positivity)
  have h2 := pyRound_mono h1
  exact div_le_div_of_nonneg_right (by exact_mod_cast h2) (by positivity)

lemma round2_mono {x y : ℚ} (h : x ≤ y) : round2 x ≤ round2 y := roundTo_mono 2 h

lemma foldl_min_le (as : List ℚ) (a : ℚ) :
    as.foldl min a ≤ a ∧ ∀ x ∈ as, as.foldl min a ≤ x := by
  induction as generalizing a with
  | nil => simp
  | cons b bs ih =>
    refine ⟨?_, ?_⟩
    · exact le_trans (ih (min a b)).1 (min_le_left a b)
    · intro x hx
      rcases List.mem_cons.mp hx with rfl | hx
      · exact le_trans (ih (min a x)).1 (min_le_right a x)
      · exact (ih (min a b)).2 x hx

lemma le_foldl_max (as : List ℚ) (a : ℚ) :
    a ≤ as.foldl max a ∧ ∀ x ∈ as, x ≤ as.foldl max a := by
  induction as generalizing a with
  | nil => simp
  | cons b bs ih =>
    refine ⟨?_, ?_⟩
    · exact le_trans (le_max_left a b) (ih (max a b)).1
    · intro x hx
      rcases List.mem_cons.mp hx with rfl | hx
      · exact le_trans (le_max_right a x) (ih (max a x)).1
      · exact (ih (max a b)).2 x hx

lemma pyMin_le {l : List ℚ} {x : ℚ} (hx : x ∈ l) : pyMin l ≤ x := by
  cases l with
  | nil => cases hx
  | cons a as =>
    rcases List.mem_cons.mp hx with rfl | hx
    · exact (foldl_min_le as x).1
    · exact (foldl_min_le as a).2 x hx

lemma le_pyMax {l : List ℚ} {x : ℚ} (hx : x ∈ l) : x ≤ pyMax l := by
  cases l with
  | nil => cases hx
  | cons a as =>
    rcases List.mem_cons.mp hx with rfl | hx
    · exact (le_foldl_max as x).1
    · exact (le_foldl_max as a).2 x hx

lemma sorted_getD_mono {l : List ℚ} (hs : l.Sorted (· ≤ ·)) {i j : ℕ}
    (hij : i ≤ j) (hj : j < l.length) : l.getD i 0 ≤ l.getD j 0 := by
  have hi : i < l.length := lt_of_le_of_lt hij hj
  rw [List.getD_eq_getElem _ _ hi, List.getD_eq_getElem _ _ hj]
  have := hs.rel_get_of_le (a := ⟨i, hi⟩) (b := ⟨j, hj⟩) hij
  simpa using this

lemma sorted_getD_mem {l : List ℚ} {k : ℕ} (hk : k < l.length) :
    l.getD k 0 ∈ l := by
  rw [List.getD_eq_getElem _ _ hk]
  exact List.getElem_mem hk

/-- The nearest-rank 25th percentile is at most the median, which is at
most the 75th percentile, on the ascending sort of a non-empty list. -/
lemma median_between (values : List ℚ) (h : values ≠ []) :
    (values.insertionSort (· ≤ ·)).getD (values.length / 4) 0 ≤
      pyMedian values ∧
    pyMedian values ≤
      (values.insertionSort (· ≤ ·)).getD (3 * values.length / 4) 0 := by
  have hs : (values.insertionSort (· ≤ ·)).Sorted (· ≤ ·) :=
    List.sorted_insertionSort _ _
  have hlen : (values.insertionSort (· ≤ ·)).length = values.length :=
    (List.perm_insertionSort _ _).length_eq
  have hn : 0 < values.length := List.length_pos.mpr h
  unfold pyMedian
  by_cases hodd : values.length % 2 = 1
  · rw [if_pos hodd]
    constructor
    · exact sorted_getD_mono hs (by omega) (by omega)
    · exact sorted_getD_mono hs (by omega) (by omega)
  · rw [if_neg hodd]
    have h2 : 2 ≤ values.length := by omega
    have hab : (values.insertionSort (· ≤ ·)).getD (values.length / 2 - 1) 0 ≤
        (values.insertionSort (· ≤ ·)).getD (values.length / 2) 0 :=
      sorted_getD_mono hs (by omega) (by omega)
    constructor
    · have := sorted_getD_mono hs
        (show values.length / 4 ≤ values.length / 2 - 1 by omega) (by omega)
      linarith
    · have := sorted_getD_mono hs
        (show values.length / 2 ≤ 3 * values.length / 4 by omega) (by omega)
      linarith

/-- C5: every per-feature summary of `aggregate_audio_features` (claimed for
inputs whose collected feature values contain at least 2 distinct values)
has min ≤ p25 ≤ median ≤ p75 ≤ max, with p25/p75 the nearest-rank sorted
values at indices n/4 and 3n/4. -/
theorem c5_percentile_order (tracks : List Track) (f : FeatName)
    (st : FeatureStats)
    (hst : (aggregate_audio_features tracks).features f = some st)
    (hdist : 2 ≤ (collectFeature tracks f).dedup.length) :
    st.min ≤ st.p25 ∧ st.p25 ≤ st.median ∧ st.median ≤ st.p75 ∧
      st.p75 ≤ st.max := by
  by_cases htr : tracks = []
  · subst htr
    simp [aggregate_audio_features] at hst
  · simp only [aggregate_audio_features, if_neg htr] at hst
    by_cases hv : collectFeature tracks f = []
    · rw [if_pos hv] at hst
      cases hst
    · rw [if_neg hv] at hst
      obtain rfl : featureStats (collectFeature tracks f) = st :=
        Option.some.inj hst
      set values := collectFeature tracks f with hvals
      have hs : (values.insertionSort (· ≤ ·)).Sorted (· ≤ ·) :=
        List.sorted_insertionSort _ _
      have hperm : List.Perm (values.insertionSort (· ≤ ·)) values :=
        List.perm_insertionSort _ _
      have hlen : (values.insertionSort (· ≤ ·)).length = values.length :=
        hperm.length_eq
      have hn : 0 < values.length := List.length_pos.mpr hv
      have hmem : ∀ k, k < values.length →
          (values.insertionSort (· ≤ ·)).getD k 0 ∈ values := fun k hk =>
        hperm.mem_iff.mp (sorted_getD_mem (by omega))
      refine ⟨?_, ?_, ?_, ?_⟩
      · exact round2_mono (pyMin_le (hmem _ (by omega)))
      · exact round2_mono (median_between values hv).1
      · exact round2_mono (median_between values hv).2
      · exact round2_mono (le_pyMax (hmem _ (by omega)))

/-- C5 witness: four tracks with tempos 10/20/30/40. -/
theorem c5_witness :
    (featureStats (collectFeature
      [{ audio_features := some { tempo := some 10 } },
       { audio_features := some { tempo := some 20 } },
       { audio_features := some { tempo := some 30 } },
       { audio_features := some { tempo := some 40 } }] .tempo)).min ≤
      (featureStats (collectFeature
      [{ audio_features := some { tempo := some 10 } },
       { audio_features := some { tempo := some 20 } },
       { audio_features := some { tempo := some 30 } },
       { audio_features := some { tempo := some 40 } }] .tempo)).p25 :=
  (c5_percentile_order
    [{ audio_features := some { tempo := some 10 } },
     { audio_features := some { tempo := some 20 } },
     { audio_features := some { tempo := some 30 } },
     { audio_features := some { tempo := some 40 } }] .tempo _ rfl
    (by decide)).1

/-! ### Bounds on the Shannon entropy term -/

lemma dedup_toFinset (l : List String) : l.dedup.toFinset = l.toFinset := by
  ext x
  simp [List.mem_dedup]

lemma shannonEntropy_eq_sum_toFinset (items : List String) :
    shannonEntropy items = ∑ a in items.toFinset,
      (if 0 < ((items.count a : ℝ) / items.length) then
        -(((items.count a : ℝ) / items.length) *
          Real.log ((items.count a : ℝ) / items.length)) else 0) := by
  rw [shannonEntropy, ← List.sum_toFinset _ items.nodup_dedup, dedup_toFinset]

lemma count_div_length_pos {items : List String} {a : String}
    (ha : a ∈ items) : 0 < ((items.count a : ℝ) / items.length) := by
  have h1 : 0 < items.count a := List.count_pos_iff.mpr ha
  have h2 : 0 < items.length := List.length_pos.mpr (List.ne_nil_of_mem ha)
  positivity

lemma count_div_length_le_one {items : List String} (a : String) :
    ((items.count a : ℝ) / items.length) ≤ 1 := by
  rcases Nat.eq_zero_or_pos items.length with h | h
  · simp [h]
  · rw [div_le_one (by exact_mod_cast h)]
    exact_mod_cast List.count_le_length a items

lemma shannonEntropy_nonneg (items : List String) :
    0 ≤ shannonEntropy items := by
  rw [shannonEntropy_eq_sum_toFinset]
  refine Finset.sum_nonneg fun a _ => ?_
  split_ifs with hp
  · have h1 : ((items.count a : ℝ) / items.length) ≤ 1 :=
      count_div_length_le_one a
    have := Real.log_nonpos (le_of_lt hp) h1
    nlinarith
  · exact le_refl 0

/-- Gibbs-style bound: the entropy of the first-artist distribution is at
most `log` of the number of distinct values (via `log x ≤ x - 1`). -/
lemma shannonEntropy_le_log (items : List String) (h0 : items ≠ []) :
    shannonEntropy items ≤ Real.log items.dedup.length := by
  set k := items.dedup.length with hk
  have hkpos : 0 < k := by
    rw [hk]
    have : items.dedup ≠ [] := by
      intro hd
      exact h0 ((List.dedup_eq_nil _).mp hd)
    exact List.length_pos.mpr this
  have hkR : (0:ℝ) < k := by exact_mod_cast hkpos
  have hlen : 0 < items.length := List.length_pos.mpr h0
  have hlenR : (0:ℝ) < items.length := by exact_mod_cast hlen
  rw [shannonEntropy_eq_sum_toFinset]
  have hcard : items.toFinset.card = k := List.card_toFinset items
  have hsum_counts : ∑ a in items.toFinset, (items.count a : ℝ) =
      items.length := by
    rw [← Nat.cast_sum]
    exact_mod_cast congrArg Nat.cast (List.sum_toFinset_count_eq_length items)
  have hsum_p : ∑ a in items.toFinset,
      ((items.count a : ℝ) / items.length) = 1 := by
    rw [← Finset.sum_div, hsum_counts, div_self (ne_of_gt hlenR)]
  have hpoint : ∀ a ∈ items.toFinset,
      (if 0 < ((items.count a : ℝ) / items.length) then
        -(((items.count a : ℝ) / items.length) *
          Real.log ((items.count a : ℝ) / items.length)) else 0) ≤
      ((items.count a : ℝ) / items.length) * Real.log k +
        (1 / k - ((items.count a : ℝ) / items.length)) := by
    intro a ha
    have hamem : a ∈ items := List.mem_toFinset.mp ha
    have hp : 0 < ((items.count a : ℝ) / items.length) :=
      count_div_length_pos hamem
    rw [if_pos hp]
    set p : ℝ := (items.count a : ℝ) / items.length with hpdef
    have hlog : Real.log (1 / (p * k)) ≤ 1 / (p * k) - 1 :=
      Real.log_le_sub_one_of_pos (by positivity)
    have hmul : p * Real.log (1 / (p * k)) ≤ p * (1 / (p * k) - 1) :=
      mul_le_mul_of_nonneg_left hlog (le_of_lt hp)
    have hexpand : Real.log (1 / (p * k)) = -(Real.log p + Real.log k) := by
      rw [one_div, Real.log_inv,
        Real.log_mul (ne_of_gt hp) (ne_of_gt hkR)]
    have hinv : p * (1 / (p * k)) = 1 / k := by
      field_simp
    rw [hexpand] at hmul
    have : p * -(Real.log p + Real.log k) =
        -(p * Real.log p) - p * Real.log k := by ring
    rw [this] at hmul
    rw [mul_sub, hinv, mul_one] at hmul
    linarith
  calc ∑ a in items.toFinset,
      (if 0 < ((items.count a : ℝ) / items.length) then
        -(((items.count a : ℝ) / items.length) *
          Real.log ((items.count a : ℝ) / items.length)) else 0)
      ≤ ∑ a in items.toFinset,
        (((items.count a : ℝ) / items.length) * Real.log k +
          (1 / k - ((items.count a : ℝ) / items.length))) :=
        Finset.sum_le_sum hpoint
    _ = (∑ a in items.toFinset, ((items.count a : ℝ) / items.length)) *
          Real.log k +
        (items.toFinset.card * (1 / k) -
          ∑ a in items.toFinset, ((items.count a : ℝ) / items.length)) := by
        rw [Finset.sum_add_distrib, Finset.sum_sub_distrib, ← Finset.sum_mul,
          Finset.sum_const, nsmul_eq_mul]
    _ = Real.log k := by
        rw [hsum_p, hcard]
        field_simp

/-- The normalized artist entropy always lies in `[0, 1]`. -/
lemma artistEntropyNormalized_mem (artists : List String) :
    0 ≤ artistEntropyNormalized artists ∧
      artistEntropyNormalized artists ≤ 1 := by
  simp only [artistEntropyNormalized]
  split_ifs with h1 h2
  · obtain ⟨hu, hlen⟩ := h1
    have h0 : artists ≠ [] := by
      intro h
      rw [h] at hlen
      simp at hlen
    constructor
    · exact div_nonneg (shannonEntropy_nonneg artists) (le_of_lt h2)
    · rw [div_le_one h2]
      exact shannonEntropy_le_log artists h0
  · exact ⟨le_refl 0, zero_le_one⟩
  · exact ⟨le_refl 0, zero_le_one⟩

/-! ### Bounds on the other diversity components and on real rounding -/

lemma cvScores_bounds (tracks : List Track) :
    ∀ x ∈ cvScores tracks, 0 ≤ x ∧ x ≤ 1 := by
  intro x hx
  simp only [cvScores, List.mem_filterMap] at hx
  obtain ⟨f, _, hfx⟩ := hx
  split_ifs at hfx with h1 h2
  obtain rfl : min (sampleStd (collectFeature tracks f) /
      ((pyMean (collectFeature tracks f) : ℚ) : ℝ)) 1 = x :=
    Option.some.inj hfx
  refine ⟨le_min ?_ zero_le_one, min_le_right _ _⟩
  exact div_nonneg (Real.sqrt_nonneg _) (by exact_mod_cast le_of_lt h2)

lemma list_mean_bounds (l : List ℝ) (hne : l ≠ [])
    (h : ∀ x ∈ l, 0 ≤ x ∧ x ≤ 1) :
    0 ≤ l.sum / l.length ∧ l.sum / l.length ≤ 1 := by
  have hlen : (0:ℝ) < l.length := by
    exact_mod_cast List.length_pos.mpr hne
  constructor
  · exact div_nonneg (List.sum_nonneg fun x hx => (h x hx).1) (le_of_lt hlen)
  · rw [div_le_one hlen]
    have := List.sum_le_card_nsmul l 1 (fun x hx => (h x hx).2)
    simpa using this

lemma one_sub_div_mem {u tot : ℕ} (h : u ≤ tot) :
    0 ≤ (if 0 < tot then 1 - (u:ℚ)/tot else 0) ∧
      (if 0 < tot then 1 - (u:ℚ)/tot else 0) ≤ 1 := by
  split_ifs with hpos
  · have htotR : (0:ℚ) < tot := by exact_mod_cast hpos
    constructor
    · have hle : (u:ℚ)/tot ≤ 1 := by
        rw [div_le_one htotR]
        exact_mod_cast h
      linarith
    · have : (0:ℚ) ≤ (u:ℚ)/tot := by positivity
      linarith
  · norm_num

lemma le_pyRoundR_of_le {m : ℤ} {x : ℝ} (h : (m:ℝ) ≤ x) : m ≤ pyRoundR x := by
  have h1 : m ≤ ⌊x⌋ := Int.le_floor.mpr h
  have h2 : ⌊x⌋ ≤ pyRoundR x := by
    unfold pyRoundR
    split_ifs <;> omega
  omega

lemma pyRoundR_le_of_le {m : ℤ} {x : ℝ} (h : x ≤ (m:ℝ)) : pyRoundR x ≤ m := by
  have hfm : ⌊x⌋ ≤ m := by
    have := Int.floor_le_floor h
    rwa [Int.floor_intCast] at this
  have hup : ∀ _ : 1/2 ≤ x - ⌊x⌋, ⌊x⌋ + 1 ≤ m := by
    intro hge
    have hx2 : (⌊x⌋:ℝ) + 1/2 ≤ x := by linarith
    have : (⌊x⌋:ℝ) < (m:ℝ) := by linarith
    have : ⌊x⌋ < m := by exact_mod_cast this
    omega
  unfold pyRoundR
  split_ifs with h1 h2 h3
  · exact hfm
  · exact hup (not_lt.mp h1)
  · exact hfm
  · exact hup (not_lt.mp h1)

lemma pyRoundR_score_range {S : ℝ} (h0 : 0 ≤ S) (h1 : S ≤ 1) :
    0 ≤ pyRoundR (S * 100) ∧ pyRoundR (S * 100) ≤ 100 := by
  constructor
  · refine le_pyRoundR_of_le (m := 0) ?_
    push_cast
    nlinarith
  · refine pyRoundR_le_of_le (m := 100) ?_
    push_cast
    nlinarith


/-- C6: for every non-empty track list, with the genre-diversity argument
absent or in `[0, 1]`, the diversity index is an integer (by construction)
in `[0, 100]`. -/
theorem c6_diversity_index_range (tracks : List Track) (gd : Option ℚ)
    (htr : tracks ≠ []) (hgd : ∀ q, gd = some q → 0 ≤ q ∧ q ≤ 1) :
    0 ≤ (compute_diversity_index tracks gd).diversity_index ∧
      (compute_diversity_index tracks gd).diversity_index ≤ 100 := by
  obtain ⟨ha0, ha1⟩ := artistEntropyNormalized_mem (artistsOf tracks)
  have hu : (if trackIdsOf tracks = [] then 0
        else (trackIdsOf tracks).dedup.length) ≤
      (if trackIdsOf tracks = [] then tracks.length
        else (trackIdsOf tracks).length) := by
    split_ifs with h
    · exact Nat.zero_le _
    · exact (List.dedup_sublist _).length_le
  obtain ⟨hr0, hr1⟩ := one_sub_div_mem hu
  have hs0 : (0:ℚ) ≤ 1 - (if 0 < (if trackIdsOf tracks = [] then tracks.length
        else (trackIdsOf tracks).length) then
      1 - ((if trackIdsOf tracks = [] then 0
        else (trackIdsOf tracks).dedup.length : ℕ) : ℚ) /
        ((if trackIdsOf tracks = [] then tracks.length
          else (trackIdsOf tracks).length : ℕ) : ℚ) else 0) := by linarith
  have hs1 : 1 - (if 0 < (if trackIdsOf tracks = [] then tracks.length
        else (trackIdsOf tracks).length) then
      1 - ((if trackIdsOf tracks = [] then 0
        else (trackIdsOf tracks).dedup.length : ℕ) : ℚ) /
        ((if trackIdsOf tracks = [] then tracks.length
          else (trackIdsOf tracks).length : ℕ) : ℚ) else 0) ≤ (1:ℚ) := by
    linarith
  have hs0R := (Rat.cast_nonneg (K := ℝ)).mpr hs0
  have hs1R := (Rat.cast_le (K := ℝ)).mpr hs1
  rw [Rat.cast_one] at hs1R
  simp only [compute_diversity_index, if_neg htr]
  by_cases hcv : cvScores tracks = []
  · rcases gd with _ | g
    · rw [if_neg (not_not_intro hcv)]
      dsimp only
      rw [if_neg (by simp : ¬(false = true))]
      exact pyRoundR_score_range (by linarith) (by linarith)
    · rw [if_neg (not_not_intro hcv)]
      dsimp only
      rw [if_neg (by simp : ¬(false = true))]
      obtain ⟨hg0, hg1⟩ := hgd g rfl
      have hg0R : (0:ℝ) ≤ (g:ℝ) := by exact_mod_cast hg0
      have hg1R : (g:ℝ) ≤ 1 := by exact_mod_cast hg1
      exact pyRoundR_score_range (by linarith) (by linarith)
  · rw [if_pos hcv]
    dsimp only
    rw [if_pos rfl]
    obtain ⟨hf0, hf1⟩ := list_mean_bounds (cvScores tracks) hcv
      (cvScores_bounds tracks)
    exact pyRoundR_score_range (by linarith) (by linarith)

/-- C6 witness: a single track with one artist and no features has a
diversity index inside `[0, 100]`. -/
theorem c6_witness :
    0 ≤ (compute_diversity_index [{ artists := ["A"] }] none).diversity_index ∧
      (compute_diversity_index [{ artists := ["A"] }] none).diversity_index ≤
        100 :=
  c6_diversity_index_range [{ artists := ["A"] }] none (by simp)
    (fun q h => by cases h)

/-! ### Entropy endpoints (all-same artist, all-distinct artists) -/

lemma dedup_of_const {l : List String} {a : String} (h : ∀ x ∈ l, x = a)
    (hne : l ≠ []) : l.dedup = [a] := by
  induction l with
  | nil => exact absurd rfl hne
  | cons x xs ih =>
    have hxa : x = a := h x (by simp)
    subst hxa
    by_cases hxs : xs = []
    · subst hxs; rfl
    · have hd := ih (fun y hy => h y (by simp [hy])) hxs
      have hmem : x ∈ xs := by
        rcases xs with _ | ⟨y, ys⟩
        · exact absurd rfl hxs
        · rw [h y (by simp)]; simp
      rw [List.dedup_cons_of_mem hmem, hd]

lemma sum_map_const_real {α : Type} (l : List α) (c : ℝ) :
    (l.map fun _ => c).sum = l.length * c := by
  induction l with
  | nil => simp
  | cons x xs ih => simp [ih]; ring

lemma length_artistsOf_of_isSome (tracks : List Track)
    (h : ∀ t ∈ tracks, (firstArtist t).isSome) :
    (artistsOf tracks).length = tracks.length := by
  induction tracks with
  | nil => rfl
  | cons t ts ih =>
    obtain ⟨x, hx⟩ := Option.isSome_iff_exists.mp (h t (by simp))
    simp only [artistsOf, List.filterMap_cons, hx]
    rw [List.length_cons]
    have := ih (fun y hy => h y (by simp [hy]))
    simp only [artistsOf] at this
    rw [this]
    simp

/-- C8: the reported `artist_entropy_normalized` is 0.0 when all tracks
share one first artist (non-empty input), and 1.0 when all tracks have a
first artist, the first artists are pairwise distinct, and there are more
than one of them. -/
theorem c8_artist_entropy (tracks : List Track) (gd : Option ℚ) :
    (∀ a, tracks ≠ [] → (∀ t ∈ tracks, firstArtist t = some a) →
      (compute_diversity_index tracks gd).artist_entropy_normalized = 0) ∧
    ((∀ t ∈ tracks, (firstArtist t).isSome) → (artistsOf tracks).Nodup →
      1 < tracks.length →
      (compute_diversity_index tracks gd).artist_entropy_normalized = 1) := by
  constructor
  · intro a htr hall
    have hart : ∀ x ∈ artistsOf tracks, x = a := by
      intro x hx
      simp only [artistsOf, List.mem_filterMap] at hx
      obtain ⟨t, ht, hft⟩ := hx
      rw [hall t ht] at hft
      exact (Option.some.inj hft).symm
    have hne : artistsOf tracks ≠ [] := by
      obtain ⟨t, ht⟩ := List.exists_mem_of_ne_nil tracks htr
      intro hempty
      have hmem : a ∈ artistsOf tracks :=
        List.mem_filterMap.mpr ⟨t, ht, hall t ht⟩
      rw [hempty] at hmem
      cases hmem
    have haen : artistEntropyNormalized (artistsOf tracks) = 0 := by
      simp only [artistEntropyNormalized, dedup_of_const hart hne]
      norm_num
    simp only [compute_diversity_index, if_neg htr, haen]
    unfold roundToR pyRoundR
    norm_num
  · intro hsome hnodup hlen2
    have hlen : (artistsOf tracks).length = tracks.length :=
      length_artistsOf_of_isSome tracks hsome
    have hn2 : 1 < (artistsOf tracks).length := by omega
    have htr : tracks ≠ [] := by
      intro h; subst h; simp at hlen2
    have hd : (artistsOf tracks).dedup = artistsOf tracks := hnodup.dedup
    have hnR : (1:ℝ) < (artistsOf tracks).length := by exact_mod_cast hn2
    have hn0 : (0:ℝ) < (artistsOf tracks).length := by linarith
    have hlog : 0 < Real.log (artistsOf tracks).length := Real.log_pos hnR
    have hent : shannonEntropy (artistsOf tracks) =
        Real.log (artistsOf tracks).length := by
      unfold shannonEntropy
      rw [hd]
      have hmap : (artistsOf tracks).map (fun a =>
          let p : ℝ := ((artistsOf tracks).count a : ℝ) /
            (artistsOf tracks).length
          if 0 < p then -(p * Real.log p) else 0) =
          (artistsOf tracks).map (fun _ =>
            -((1 / ((artistsOf tracks).length : ℝ)) *
              Real.log (1 / ((artistsOf tracks).length : ℝ)))) := by
        refine List.map_congr_left ?_
        intro a ha
        have hc : (artistsOf tracks).count a = 1 :=
          List.count_eq_one_of_mem hnodup ha
        simp only [hc, Nat.cast_one]
        rw [if_pos (by positivity)]
      rw [hmap, sum_map_const_real]
      rw [one_div, Real.log_inv]
      field_simp
    have haen : artistEntropyNormalized (artistsOf tracks) = 1 := by
      simp only [artistEntropyNormalized, hd]
      rw [if_pos ⟨hn2, by omega⟩, if_pos hlog, hent,
        div_self (ne_of_gt hlog)]
    simp only [compute_diversity_index, if_neg htr, haen]
    unfold roundToR pyRoundR
    norm_num

/-- C8 witness: two tracks by the same artist give entropy 0.0; two tracks
by different artists give entropy 1.0. -/
theorem c8_witness :
    (compute_diversity_index
      [{ artists := ["A"] }, { artists := ["A"] }] none).artist_entropy_normalized
      = 0 ∧
    (compute_diversity_index
      [{ artists := ["A"] }, { artists := ["B"] }] none).artist_entropy_normalized
      = 1 :=
  ⟨(c8_artist_entropy [{ artists := ["A"] }, { artists := ["A"] }] none).1 "A"
      (by simp) (by intro t ht; fin_cases ht <;> rfl),
   (c8_artist_entropy [{ artists := ["A"] }, { artists := ["B"] }] none).2
      (by intro t ht; fin_cases ht <;> rfl) (by decide) (by decide)⟩

end MTG
